import Mathlib

/-!
Verification development for the `byday` time-bucketing and aggregation
engine (`byday.py`).  The program converts a stream of timestamped events
into fixed-width character rows, one row per time window; each character is
produced by an accumulator summarizing the events of one sub-interval.

The embedding below models timestamps at one-second resolution.  A Python
`datetime` is modelled by `PyDateTime` (proleptic Gregorian calendar, as
used by Python's `datetime` arithmetic); subtraction and comparison of
datetimes go through `PyDateTime.toSecs`, the count of seconds since the
calendar origin.  Arithmetic the source performs on floats
(`timedelta.total_seconds()` products and quotients) is modelled exactly,
with natural-number floor division standing for `int(...)` on non-negative
quantities.
-/

/-! ### Calendar model (Python `datetime` at second resolution) -/

/-- Gregorian leap-year rule, as implemented by Python's calendar. -/
def isLeap (y : Nat) : Bool :=
  (y % 4 == 0 && y % 100 != 0) || y % 400 == 0

/-- Number of days in month `m` of year `y` (months are 1-based). -/
def daysInMonth (y m : Nat) : Nat :=
  if m = 2 then (if isLeap y then 29 else 28)
  else if m = 4 ∨ m = 6 ∨ m = 9 ∨ m = 11 then 30
  else 31

/-- Days in the months of year `y` strictly before month `m`. -/
def daysBeforeMonth (y : Nat) : Nat → Nat
  | 0 => 0
  | 1 => 0
  | m + 1 => daysBeforeMonth y m + daysInMonth y m

/-- Days in all years strictly before year `y` (proleptic Gregorian,
year 1 is the first year, as in Python's `datetime.toordinal`). -/
def daysBeforeYear (y : Nat) : Nat :=
  365 * (y - 1) + (y - 1) / 4 - (y - 1) / 100 + (y - 1) / 400

/-- A Python `datetime`, truncated to second resolution (the source only
ever zeroes the microsecond field of the timestamps it buckets). -/
structure PyDateTime where
  year : Nat
  month : Nat
  day : Nat
  hour : Nat
  minute : Nat
  second : Nat
deriving DecidableEq, Repr

/-- Validity of a `PyDateTime`: the ranges Python's `datetime` enforces. -/
def PyDateTime.Valid (d : PyDateTime) : Prop :=
  1 ≤ d.year ∧ 1 ≤ d.month ∧ d.month ≤ 12 ∧
  1 ≤ d.day ∧ d.day ≤ daysInMonth d.year d.month ∧
  d.hour < 24 ∧ d.minute < 60 ∧ d.second < 60

instance (d : PyDateTime) : Decidable d.Valid := by
  unfold PyDateTime.Valid; infer_instance

/-- Day ordinal of a datetime (0 for year 1, January 1). -/
def PyDateTime.toDays (d : PyDateTime) : Nat :=
  daysBeforeYear d.year + daysBeforeMonth d.year d.month + (d.day - 1)

/-- Seconds since the calendar origin; Python `datetime` subtraction
`(a - b).total_seconds()` is `(toSecs a : Int) - toSecs b`, and `datetime`
ordering is the ordering of `toSecs`. -/
def PyDateTime.toSecs (d : PyDateTime) : Nat :=
  86400 * d.toDays + 3600 * d.hour + 60 * d.minute + d.second

/-- The calendar successor of a day (time of day preserved). -/
def PyDateTime.succDay (d : PyDateTime) : PyDateTime :=
  if d.day < daysInMonth d.year d.month then { d with day := d.day + 1 }
  else if d.month < 12 then { d with month := d.month + 1, day := 1 }
  else { d with year := d.year + 1, month := 1, day := 1 }

/-- `d + timedelta(days := n)` for a Python datetime. -/
def PyDateTime.addDays (d : PyDateTime) : Nat → PyDateTime
  | 0 => d
  | n + 1 => (d.addDays n).succDay

/-! ### Row windows and bucket resolution (`DataRow`) -/

/-- The time window of one `DataRow`, as set up by a renderer's
`setRangeFor`: `startT` is the row's `start` datetime (kept for header
formatting), `startS`/`finishS` its `[start, finish)` window in seconds,
`durS` the `duration_s` field (the configured row duration — for the month
renderer this is 31 days even when `finish - start` is shorter), and
`length` the bucket count. -/
structure RowWin (T : Type) where
  startT : T
  startS : Nat
  finishS : Nat
  durS : Nat
  length : Nat
deriving DecidableEq, Repr

/-- Result of `DataRow._getAccumFor`: `outside` is Python's `return None`
(timestamp not in `[start, finish)`); `bucket d` is a successful lookup of
bucket `d` (which the source marks `initialized = True`); `crash` is an
uncaught exception — `ZeroDivisionError` when `duration_s` is zero, or
`IndexError` when the computed index is not a valid position in
`self.buckets`. -/
inductive ResolveResult where
  | outside : ResolveResult
  | crash : ResolveResult
  | bucket : Nat → ResolveResult
deriving DecidableEq, Repr

/-- `DataRow._getAccumFor(timestamp)` (byday.py:251-255), reduced to the
bucket index it selects.  `tsS` is the timestamp in seconds;
`int(elapsed * length / duration_s)` is floor division since all
quantities are non-negative. -/
def DataRow.getAccumFor {T : Type} (r : RowWin T) (tsS : Nat) : ResolveResult :=
  if tsS < r.startS ∨ r.finishS ≤ tsS then .outside
  else if r.durS = 0 then .crash
  else
    let d := (tsS - r.startS) * r.length / r.durS
    if d < r.length then .bucket d else .crash

/-- `ts.replace(day=1, hour=0, minute=0, second=0, microsecond=0)`: the
start of a month row (byday.py:493). -/
def monthFirst (ts : PyDateTime) : PyDateTime :=
  { ts with day := 1, hour := 0, minute := 0, second := 0 }

/-- `MonthPrinter.setRangeFor(ts, dr)` (byday.py:492-500): `start` is the
first of the month at midnight; `duration` is the configured
`rowDuration = timedelta(days=31)`; `finish` is the first of `[28,29,30,31]`
days after `start` that lands on day 1 of a month; `none` is the
`assert False` fallthrough. -/
def MonthPrinter.setRangeFor (ts : PyDateTime) (length : Nat) :
    Option (RowWin PyDateTime) :=
  match [28, 29, 30, 31].find? (fun ml => ((monthFirst ts).addDays ml).day == 1) with
  | some ml =>
      some { startT := monthFirst ts, startS := (monthFirst ts).toSecs,
             finishS := ((monthFirst ts).addDays ml).toSecs,
             durS := 31 * 86400, length := length }
  | none => none

/-! ### Calendar arithmetic lemmas -/

theorem daysInMonth_ge (y m : Nat) : 28 ≤ daysInMonth y m := by
  unfold daysInMonth
  split
  · split <;> omega
  · split <;> omega

theorem daysBeforeMonth_succ (y m : Nat) (hm : 1 ≤ m) :
    daysBeforeMonth y (m + 1) = daysBeforeMonth y m + daysInMonth y m := by
  match m, hm with
  | n + 1, _ => rfl

theorem daysBeforeMonth_year (y : Nat) :
    daysBeforeMonth y 12 + daysInMonth y 12 = 365 + (if isLeap y then 1 else 0) := by
  cases hL : isLeap y <;> simp [daysBeforeMonth, daysInMonth, hL]

set_option maxHeartbeats 1000000 in
theorem daysBeforeYear_succ (y : Nat) (hy : 1 ≤ y) :
    daysBeforeYear (y + 1) = daysBeforeYear y + 365 + (if isLeap y then 1 else 0) := by
  obtain ⟨p, rfl⟩ : ∃ p, y = p + 1 := ⟨y - 1, by omega⟩
  have hL : (isLeap (p+1) = true) ↔ (((p+1) % 4 = 0 ∧ ¬ (p+1) % 100 = 0) ∨ (p+1) % 400 = 0) := by
    simp [isLeap]
  unfold daysBeforeYear
  simp only [Nat.add_sub_cancel]
  by_cases c : isLeap (p+1) = true
  · rw [if_pos c]; rw [hL] at c; omega
  · rw [if_neg c]; rw [hL] at c; omega

theorem toSecs_succDay (d : PyDateTime) (hd : d.Valid) :
    d.succDay.toSecs = d.toSecs + 86400 ∧ d.succDay.Valid := by
  obtain ⟨hy, hm1, hm12, hd1, hdim, hh, hmin, hs⟩ := hd
  unfold PyDateTime.succDay
  by_cases c1 : d.day < daysInMonth d.year d.month
  · rw [if_pos c1]
    refine ⟨?_, hy, hm1, hm12, show 1 ≤ d.day + 1 by omega,
      show d.day + 1 ≤ daysInMonth d.year d.month by omega, hh, hmin, hs⟩
    unfold PyDateTime.toSecs PyDateTime.toDays
    simp only
    omega
  · rw [if_neg c1]
    have hdd : d.day = daysInMonth d.year d.month := by omega
    by_cases c2 : d.month < 12
    · rw [if_pos c2]
      have hrec := daysBeforeMonth_succ d.year d.month hm1
      have hge := daysInMonth_ge d.year (d.month + 1)
      refine ⟨?_, hy, show 1 ≤ d.month + 1 by omega, show d.month + 1 ≤ 12 by omega,
        show 1 ≤ 1 by omega, show 1 ≤ daysInMonth d.year (d.month + 1) by omega, hh, hmin, hs⟩
      unfold PyDateTime.toSecs PyDateTime.toDays
      simp only
      omega
    · rw [if_neg c2]
      have hm : d.month = 12 := by omega
      have h31 : daysInMonth d.year 12 = 31 := rfl
      have hylem := daysBeforeYear_succ d.year hy
      have hmy := daysBeforeMonth_year d.year
      have hge : 28 ≤ daysInMonth (d.year + 1) 1 := daysInMonth_ge _ _
      have hz : daysBeforeMonth (d.year + 1) 1 = 0 := rfl
      refine ⟨?_, show 1 ≤ d.year + 1 by omega, show 1 ≤ 1 by omega, show (1:Nat) ≤ 12 by omega,
        show 1 ≤ 1 by omega, show 1 ≤ daysInMonth (d.year + 1) 1 by omega, hh, hmin, hs⟩
      unfold PyDateTime.toSecs PyDateTime.toDays
      simp only
      rw [hm] at hdd ⊢
      omega

theorem toSecs_addDays (d : PyDateTime) (hd : d.Valid) (n : Nat) :
    (d.addDays n).toSecs = d.toSecs + n * 86400 ∧ (d.addDays n).Valid := by
  induction n with
  | zero => exact ⟨rfl, hd⟩
  | succ k ih =>
    have h := toSecs_succDay (d.addDays k) ih.2
    refine ⟨?_, h.2⟩
    show (d.addDays k).succDay.toSecs = _
    rw [h.1, ih.1]
    ring

theorem addDays_sameMonth (d : PyDateTime) (n : Nat) :
    d.day + n ≤ daysInMonth d.year d.month → d.addDays n = { d with day := d.day + n } := by
  induction n with
  | zero => intro _; rfl
  | succ k ih =>
    intro h
    have hk := ih (by omega)
    show (d.addDays k).succDay = _
    rw [hk]
    have hc : d.day + k < daysInMonth d.year d.month := by omega
    unfold PyDateTime.succDay
    rw [if_pos (show ({ d with day := d.day + k } : PyDateTime).day <
      daysInMonth ({ d with day := d.day + k } : PyDateTime).year
        ({ d with day := d.day + k } : PyDateTime).month from hc)]
    rfl

/-- Window facts about every month row the source can set up for a valid
timestamp: the row's `[start, finish)` window contains the timestamp, its
seconds span is the actual month length (28–31 days), and `duration_s` is
always 31 days. -/
theorem monthSetRange_window (ts : PyDateTime) (len : Nat) (r : RowWin PyDateTime)
    (hv : ts.Valid) (h : MonthPrinter.setRangeFor ts len = some r) :
    r.startS ≤ ts.toSecs ∧ ts.toSecs < r.finishS ∧ 28 * 86400 ≤ r.finishS - r.startS ∧
    r.finishS - r.startS ≤ r.durS ∧ r.durS = 31 * 86400 ∧ r.length = len := by
  obtain ⟨hy, hm1, hm12, hd1, hdim, hh, hmin, hs⟩ := hv
  have hge := daysInMonth_ge ts.year ts.month
  have hvs : (monthFirst ts).Valid :=
    ⟨hy, hm1, hm12, Nat.le_refl 1, show 1 ≤ daysInMonth ts.year ts.month by omega,
     show (0:Nat) < 24 by omega, show (0:Nat) < 60 by omega, show (0:Nat) < 60 by omega⟩
  unfold MonthPrinter.setRangeFor at h
  cases hfind : [28, 29, 30, 31].find? (fun ml => ((monthFirst ts).addDays ml).day == 1) with
  | none => rw [hfind] at h; exact absurd h (by simp)
  | some ml =>
    rw [hfind] at h
    have hr := (Option.some.injEq _ _).mp h
    subst hr
    have hmem : ml ∈ [28, 29, 30, 31] := List.mem_of_find?_eq_some hfind
    have hml : 28 ≤ ml ∧ ml ≤ 31 := by
      simp at hmem
      omega
    have hp : ((monthFirst ts).addDays ml).day = 1 := by
      have := List.find?_some hfind
      simpa using this
    have hadd := toSecs_addDays (monthFirst ts) hvs ml
    have hmlge : daysInMonth ts.year ts.month ≤ ml := by
      by_contra hc
      push_neg at hc
      have hsame := addDays_sameMonth (monthFirst ts) ml
        (show (monthFirst ts).day + ml ≤ daysInMonth (monthFirst ts).year (monthFirst ts).month
          from by show 1 + ml ≤ daysInMonth ts.year ts.month; omega)
      rw [hsame] at hp
      have h1 : 1 + ml = 1 := hp
      omega
    have hsle : (monthFirst ts).toSecs ≤ ts.toSecs ∧
        ts.toSecs < (monthFirst ts).toSecs + (daysInMonth ts.year ts.month) * 86400 := by
      unfold PyDateTime.toSecs PyDateTime.toDays monthFirst
      simp only
      constructor
      · omega
      · have h1 : (ts.day - 1) * 86400 ≤ (daysInMonth ts.year ts.month - 1) * 86400 :=
          Nat.mul_le_mul_right _ (by omega)
        omega
    refine ⟨hsle.1, ?_, ?_, ?_, rfl, rfl⟩
    · show ts.toSecs < ((monthFirst ts).addDays ml).toSecs
      rw [hadd.1]
      have h1 : (daysInMonth ts.year ts.month) * 86400 ≤ ml * 86400 :=
        Nat.mul_le_mul_right _ hmlge
      omega
    · show 28 * 86400 ≤ ((monthFirst ts).addDays ml).toSecs - (monthFirst ts).toSecs
      rw [hadd.1]
      have h1 : 28 * 86400 ≤ ml * 86400 := Nat.mul_le_mul_right _ hml.1
      omega
    · show ((monthFirst ts).addDays ml).toSecs - (monthFirst ts).toSecs ≤ 31 * 86400
      rw [hadd.1]
      have h1 : ml * 86400 ≤ 31 * 86400 := Nat.mul_le_mul_right _ hml.2
      omega

theorem bucketIdx_eq_iff (a b c : Nat) (h : 0 < b) : a / b = c ↔ c * b ≤ a ∧ a < (c + 1) * b := by
  have hmod := Nat.div_add_mod a b
  have hlt := Nat.mod_lt a h
  constructor
  · rintro rfl
    constructor
    · have h4 : a / b * b = b * (a / b) := Nat.mul_comm _ _
      omega
    · have h4 : (a / b + 1) * b = b * (a / b) + b := by ring
      omega
  · rintro ⟨h1, h2⟩
    rcases Nat.lt_trichotomy (a / b) c with hq | hq | hq
    · exfalso
      have h3 : (a / b + 1) * b ≤ c * b := Nat.mul_le_mul_right b hq
      have h4 : (a / b + 1) * b = b * (a / b) + b := by ring
      omega
    · exact hq
    · exfalso
      have h3 : (c + 1) * b ≤ (a / b) * b := Nat.mul_le_mul_right b hq
      have h4 : (a / b) * b = b * (a / b) := Nat.mul_comm _ _
      omega

/-- Claim C1 (amended). -/
theorem C1_bucket_resolution :
    (∀ (r : RowWin PyDateTime) (tsS : Nat),
      r.startS ≤ tsS → tsS < r.finishS → r.finishS - r.startS ≤ r.durS →
      0 < r.durS → 0 < r.length →
      DataRow.getAccumFor r tsS = .bucket ((tsS - r.startS) * r.length / r.durS) ∧
      (tsS - r.startS) * r.length / r.durS < r.length ∧
      (∀ k, ((tsS - r.startS) * r.length / r.durS = k ↔
        k * r.durS ≤ (tsS - r.startS) * r.length ∧
        (tsS - r.startS) * r.length < (k + 1) * r.durS))) ∧
    (∀ (ts : PyDateTime) (len : Nat) (r : RowWin PyDateTime), ts.Valid →
      MonthPrinter.setRangeFor ts len = some r →
      r.startS ≤ ts.toSecs ∧ ts.toSecs < r.finishS ∧
      r.finishS - r.startS ≤ r.durS ∧ r.durS = 31 * 86400) := by
  constructor
  · intro r tsS h1 h2 h3 h4 h5
    have he : tsS - r.startS < r.durS := by omega
    have hidx : (tsS - r.startS) * r.length / r.durS < r.length := by
      rw [Nat.div_lt_iff_lt_mul h4]
      calc (tsS - r.startS) * r.length < r.durS * r.length :=
            (Nat.mul_lt_mul_right h5).mpr he
        _ = r.length * r.durS := Nat.mul_comm _ _
    refine ⟨?_, hidx, fun k => bucketIdx_eq_iff _ _ _ h4⟩
    unfold DataRow.getAccumFor
    rw [if_neg (by omega), if_neg (by omega)]
    simp only [hidx, if_pos]
  · intro ts len r hv h
    have := monthSetRange_window ts len r hv h
    exact ⟨this.1, this.2.1, this.2.2.2.1, this.2.2.2.2.1⟩

def feb2025Entry : PyDateTime := ⟨2025, 2, 15, 12, 0, 0⟩

def feb2025Row : RowWin PyDateTime :=
  { startT := ⟨2025, 2, 1, 0, 0, 0⟩, startS := 63873964800,
    finishS := 63876384000, durS := 31 * 86400, length := 28 }

/-- Claim C1 counterexample. -/
theorem C1_counterexample :
    MonthPrinter.setRangeFor feb2025Entry 28 = some feb2025Row ∧
    (feb2025Row.finishS - feb2025Row.startS) / feb2025Row.length = 86400 ∧
    DataRow.getAccumFor feb2025Row feb2025Row.startS = .bucket 0 ∧
    DataRow.getAccumFor feb2025Row (feb2025Row.startS + 86400) = .bucket 0 ∧
    86400 * feb2025Row.length / (feb2025Row.finishS - feb2025Row.startS) = 1 := by
  decide

/-- Witness for C1. -/
theorem C1_bucket_resolution_witness :
    DataRow.getAccumFor feb2025Row (feb2025Row.startS + 200000) =
      .bucket (200000 * feb2025Row.length / feb2025Row.durS) ∧
    feb2025Row.startS ≤ feb2025Entry.toSecs ∧ feb2025Entry.toSecs < feb2025Row.finishS := by
  have h1 := (C1_bucket_resolution.1 feb2025Row (feb2025Row.startS + 200000)
    (by decide) (by decide) (by decide) (by decide) (by decide)).1
  have h2 := C1_bucket_resolution.2 feb2025Entry 28 feb2025Row (by decide) (by decide)
  exact ⟨by simpa using h1, h2.1, h2.2.1⟩

/-! ### Accumulators -/

/-- `Accumulator` base state (byday.py:22-62): only the `initialized`
flag.  `resolveBucket`/`_getAccumFor` sets it as a side effect of lookup;
`update` also sets it. -/
structure Accumulator where
  initialized : Bool
deriving DecidableEq, Repr

def Accumulator.init : Accumulator := ⟨false⟩

/-- The `self.buckets[d].initialized = True` side effect of
`DataRow._getAccumFor` (byday.py:254). -/
def Accumulator.touch (s : Accumulator) : Accumulator := { s with initialized := true }

/-- `Accumulator.update` (byday.py:53-55). -/
def Accumulator.update (s : Accumulator) : Accumulator := { s with initialized := true }

/-- `Accumulator.format` (byday.py:60-62). -/
def Accumulator.format (s : Accumulator) : String :=
  if s.initialized then "-" else " "

/-- Linear search of Python's `list.index` (byday.py:163). -/
def listIndex (e : String) : List String → Option Nat
  | [] => none
  | x :: xs => if x = e then some 0 else (listIndex e xs).map (· + 1)

/-- `BitmaskAccum.BitmaskContext.process` (byday.py:160-168): the index of
a token in the row's first-seen list `seentoday`, appending on first
sighting; returns the index and the updated list. -/
def BitmaskContext.process (seentoday : List String) (entry : String) : Nat × List String :=
  match listIndex entry seentoday with
  | some i => (i, seentoday)
  | none => (seentoday.length, seentoday ++ [entry])

/-- `BitmaskAccum.BitmaskContext.format` (byday.py:169-172): the legend —
tokens joined by commas, with no separator when every token is at most one
character long. -/
def BitmaskContext.legend (seentoday : List String) : String :=
  let j := if 0 < seentoday.length ∧ seentoday.all (fun e => e.length ≤ 1) then "" else ","
  ":" ++ String.intercalate j seentoday

/-- `BitmaskAccum` bucket state (byday.py:147-190). -/
structure BitmaskAccum where
  initialized : Bool
  mask : Nat
deriving DecidableEq, Repr

def BitmaskAccum.init : BitmaskAccum := ⟨false, 0⟩

def BitmaskAccum.touch (s : BitmaskAccum) : BitmaskAccum := { s with initialized := true }

/-- `BitmaskAccum.update` (byday.py:180-184): `super().update` sets
`initialized`, then each non-empty token ORs `1 << index` into the mask,
threading the shared context list. -/
def BitmaskAccum.update (s : BitmaskAccum) (ctx : List String) (entries : List String) :
    BitmaskAccum × List String :=
  entries.foldl
    (fun (p : BitmaskAccum × List String) e =>
      if e = "" then p
      else
        let r := BitmaskContext.process p.2 e
        ({ p.1 with mask := p.1.mask ||| (1 <<< r.1) }, r.2))
    ({ s with initialized := true }, ctx)

/-- A single lowercase hexadecimal digit, Python `"%1x" % n` for `n < 16`. -/
def hexDigit (n : Nat) : Char :=
  if n < 10 then Char.ofNat (48 + n) else Char.ofNat (87 + n)

/-- `BitmaskAccum.format` (byday.py:186-190). -/
def BitmaskAccum.format (s : BitmaskAccum) : String :=
  if 15 < s.mask then "≡"
  else if 3 < s.mask then String.singleton (hexDigit s.mask)
  else if 0 < s.mask then String.singleton (['?', '▀', '▄', '█'].getD s.mask '?')
  else Accumulator.format ⟨s.initialized⟩

/-- The running-aggregate chain `Counted → Ordered → Additive → Stats`
(byday.py:64-143), specialised to numeric updates: the program only feeds
numbers through it (`StatsAccum.update`, `WebAccum.update`), so the
`isinstance` merge branches — the aggregate-merging roll-up path the
default wiring never exercises — are never taken. -/
structure Stats where
  count : Nat
  first : Option Int
  last : Option Int
  min : Option Int
  max : Option Int
  sum : Option Int
  sum2 : Int
deriving DecidableEq, Repr

def Stats.init : Stats := ⟨0, none, none, none, none, none, 0⟩

/-- One numeric update through `Counted/Ordered/Additive/Stats.update`. -/
def Stats.update (s : Stats) (v : Int) : Stats :=
  { count := s.count + 1,
    first := match s.first with | none => some v | some f => some f,
    last := some v,
    min := match s.min with | none => some v | some m => some (if v < m then v else m),
    max := match s.max with | none => some v | some m => some (if v > m then v else m),
    sum := match s.sum with | none => some v | some t => some (t + v),
    sum2 := s.sum2 + v * v }

/-- `StatsAccum` bucket state (byday.py:193-214). -/
structure StatsAccum where
  initialized : Bool
  stat : Stats
deriving DecidableEq, Repr

def StatsAccum.init : StatsAccum := ⟨false, Stats.init⟩

def StatsAccum.touch (s : StatsAccum) : StatsAccum := { s with initialized := true }

/-- `StatsAccum.update` (byday.py:207-210): sets `initialized`, folds the
number into the shared context's `Stats` and into the local `Stats`. -/
def StatsAccum.update (s : StatsAccum) (ctx : Stats) (v : Int) : StatsAccum × Stats :=
  ({ initialized := true, stat := s.stat.update v }, ctx.update v)

/-- Python `"%02d" % n`: decimal representation zero-padded to at least
two characters. -/
def pyFmt02d (n : Int) : String :=
  if n < 0 then toString n
  else if n < 10 then "0" ++ toString n
  else toString n

/-- `StatsAccum.format` (byday.py:212-214): the first character of
`"%02d" % int(self.stat.max)` when any value was folded. -/
def StatsAccum.format (s : StatsAccum) : String :=
  if s.stat.count = 0 then Accumulator.format ⟨s.initialized⟩
  else String.singleton ((pyFmt02d ((s.stat.max).getD 0)).get 0)

/-- `WebAccum` bucket state (byday.py:588-603); inherits `StatsAccum`'s
state. -/
structure WebAccum where
  initialized : Bool
  stat : Stats
deriving DecidableEq, Repr

def WebAccum.init : WebAccum := ⟨false, Stats.init⟩

def WebAccum.touch (s : WebAccum) : WebAccum := { s with initialized := true }

def WebAccum.IGNOREIP : List String := ["127.0.0.1"]

/-- `WebAccum.update` (byday.py:590-596): an entry is `(ip, request)`;
ignored IPs return before touching any state.  The request-line regex
match that extracts the numeric status code is abstracted as a parameter
`parseRq` (`none` = no match, also a silent return); the claims proved
below hold for every such parser. -/
def WebAccum.update (parseRq : String → Option Int) (s : WebAccum) (ctx : Stats)
    (data : String × String) : WebAccum × Stats :=
  if data.1 ∈ WebAccum.IGNOREIP then (s, ctx)
  else
    match parseRq data.2 with
    | some code => ({ initialized := true, stat := s.stat.update code }, ctx.update code)
    | none => (s, ctx)

/-- `WebAccum.format` (byday.py:598-603). -/
def WebAccum.format (s : WebAccum) : String :=
  if s.initialized = false then " "
  else if s.stat.count = 0 then "-"
  else if (s.stat.max).getD 0 = 0 then "?"
  else toString (Int.fdiv ((s.stat.max).getD 0) 100)

/-- `PriorityEventsAccum` bucket state (byday.py:612-634). -/
structure PriorityEventsAccum where
  initialized : Bool
  priority : Int
  symb : String
  count : Nat
deriving DecidableEq, Repr

/-- Class-attribute defaults `prio=-999999, symb='?', count=0`
(byday.py:613-615). -/
def PriorityEventsAccum.init : PriorityEventsAccum := ⟨false, -999999, "?", 0⟩

def PriorityEventsAccum.touch (s : PriorityEventsAccum) : PriorityEventsAccum :=
  { s with initialized := true }

/-- `PriorityEventsAccum.update` (byday.py:618-631): `super().update` sets
`initialized` first; a malformed entry (`none`, Python's caught
`ValueError` on unpacking) changes nothing else. -/
def PriorityEventsAccum.update (s : PriorityEventsAccum) (entry : Option (Int × String)) :
    PriorityEventsAccum :=
  let s' := { s with initialized := true }
  match entry with
  | none => s'
  | some pe =>
      if pe.1 > s'.priority then { s' with symb := pe.2, priority := pe.1, count := 0 }
      else if pe.1 = s'.priority then { s' with symb := pe.2, count := s'.count + 1 }
      else s'

/-- `PriorityEventsAccum.format` (byday.py:632-634). -/
def PriorityEventsAccum.format (s : PriorityEventsAccum) : String :=
  if s.initialized then s.symb else " "

/-! ### Claims about accumulator formatting -/

/-- Number of set bits in a mask (number of distinct token indices
recorded), computed with a structural fuel. -/
def bitsSetAux : Nat → Nat → Nat
  | 0, _ => 0
  | _ + 1, 0 => 0
  | fuel + 1, n + 1 => (n + 1) % 2 + bitsSetAux fuel ((n + 1) / 2)

def bitsSet (n : Nat) : Nat := bitsSetAux n n

theorem bitsSet_le_four : ∀ m, m < 16 → bitsSet m ≤ 4 := by decide

/-- Claim C4 (amended): the bitmask format branches on the mask value. -/
theorem C4_bitmask_format (s : BitmaskAccum) :
    (s.mask = 0 → s.format = Accumulator.format ⟨s.initialized⟩) ∧
    (0 < s.mask → s.mask ≤ 3 → s.format ∈ ["▀", "▄", "█"]) ∧
    (3 < s.mask → s.mask ≤ 15 → s.format = String.singleton (hexDigit s.mask)) ∧
    (15 < s.mask → s.format = "≡") ∧
    (4 < bitsSet s.mask → s.format = "≡") ∧
    (BitmaskAccum.update BitmaskAccum.init.touch [] ["a", "b", "c", "d", "e"]).1.format = "≡" := by
  refine ⟨?_, ?_, ?_, ?_, ?_, by decide⟩
  · intro h
    unfold BitmaskAccum.format
    rw [if_neg (by omega), if_neg (by omega), if_neg (by omega)]
  · intro h0 h3
    have : s.mask = 1 ∨ s.mask = 2 ∨ s.mask = 3 := by omega
    unfold BitmaskAccum.format
    rcases this with h | h | h <;> rw [h] <;> simp <;> decide
  · intro h3 h15
    unfold BitmaskAccum.format
    rw [if_neg (by omega), if_pos (by omega)]
  · intro h
    unfold BitmaskAccum.format
    rw [if_pos (by omega)]
  · intro h
    have h16 : 15 < s.mask := by
      by_contra hc
      push_neg at hc
      have := bitsSet_le_four s.mask (by omega)
      omega
    unfold BitmaskAccum.format
    rw [if_pos (by omega)]

/-- Witness for C4. -/
theorem C4_bitmask_format_witness :
    (⟨true, 0⟩ : BitmaskAccum).format = "-" ∧
    (⟨true, 2⟩ : BitmaskAccum).format ∈ ["▀", "▄", "█"] ∧
    (⟨true, 12⟩ : BitmaskAccum).format = String.singleton (hexDigit 12) ∧
    (⟨true, 16⟩ : BitmaskAccum).format = "≡" ∧
    (⟨true, 31⟩ : BitmaskAccum).format = "≡" := by
  refine ⟨?_, ?_, ?_, ?_, ?_⟩
  · have h := (C4_bitmask_format ⟨true, 0⟩).1 rfl
    simpa using h
  · exact (C4_bitmask_format ⟨true, 2⟩).2.1 (by decide) (by decide)
  · exact (C4_bitmask_format ⟨true, 12⟩).2.2.1 (by decide) (by decide)
  · exact (C4_bitmask_format ⟨true, 16⟩).2.2.2.1 (by decide)
  · exact (C4_bitmask_format ⟨true, 31⟩).2.2.2.2.1 (by decide)

/-- Claim C4 counterexample: masks with 1 distinct bit above bit 1 render
as a hex digit (mask 4) or the overflow glyph (mask 16), not a quadrant
glyph. -/
theorem C4_counterexample :
    (BitmaskAccum.update BitmaskAccum.init.touch ["a", "b"] ["c"]).1.mask = 4 ∧
    bitsSet (BitmaskAccum.update BitmaskAccum.init.touch ["a", "b"] ["c"]).1.mask = 1 ∧
    (BitmaskAccum.update BitmaskAccum.init.touch ["a", "b"] ["c"]).1.format = "4" ∧
    (("4" : String) ∉ (["▀", "▄", "█"] : List String)) ∧
    (BitmaskAccum.update BitmaskAccum.init.touch ["a", "b", "c", "d"] ["e"]).1.mask = 16 ∧
    (BitmaskAccum.update BitmaskAccum.init.touch ["a", "b", "c", "d"] ["e"]).1.format = "≡" := by
  decide

/-- Claim C8: priority-event bucket update and format behaviour. -/
theorem C8_priority_events (s : PriorityEventsAccum) (p : Int) (y : String) :
    (s.priority < p →
      s.update (some (p, y)) = ⟨true, p, y, 0⟩) ∧
    (p = s.priority →
      s.update (some (p, y)) = ⟨true, s.priority, y, s.count + 1⟩) ∧
    (s.initialized = true → p < s.priority → s.update (some (p, y)) = s) ∧
    ((((PriorityEventsAccum.init.touch.update (some (1, "a"))).update
        (some (3, "b"))).update (some (2, "c"))).symb = "b" ∧
     (((PriorityEventsAccum.init.touch.update (some (1, "a"))).update
        (some (3, "b"))).update (some (2, "c"))).format = "b") ∧
    (s.initialized = true → s.format = s.symb) ∧
    PriorityEventsAccum.init.format = " " := by
  refine ⟨?_, ?_, ?_, by decide, ?_, by decide⟩
  · intro h
    unfold PriorityEventsAccum.update
    simp only
    rw [if_pos (show ((p, y).1 > ({ s with initialized := true } : PriorityEventsAccum).priority) from h)]
  · intro h
    unfold PriorityEventsAccum.update
    simp only
    rw [if_neg (show ¬((p, y).1 > ({ s with initialized := true } : PriorityEventsAccum).priority) from by
        show ¬(s.priority < p); omega),
      if_pos (show ((p, y).1 = ({ s with initialized := true } : PriorityEventsAccum).priority) from h)]
  · intro hi h
    unfold PriorityEventsAccum.update
    simp only
    rw [if_neg (show ¬((p, y).1 > ({ s with initialized := true } : PriorityEventsAccum).priority) from by
        show ¬(s.priority < p); omega),
      if_neg (show ¬((p, y).1 = ({ s with initialized := true } : PriorityEventsAccum).priority) from by
        show ¬(p = s.priority); omega)]
    cases s with
    | mk i pr sy c => cases hi; rfl
  · intro hi
    unfold PriorityEventsAccum.format
    rw [if_pos hi]

/-- Witness for C8. -/
theorem C8_priority_events_witness :
    PriorityEventsAccum.update ⟨true, 3, "b", 0⟩ (some (2, "c")) = ⟨true, 3, "b", 0⟩ ∧
    PriorityEventsAccum.update ⟨true, 1, "a", 0⟩ (some (3, "b")) = ⟨true, 3, "b", 0⟩ ∧
    PriorityEventsAccum.update ⟨true, 3, "b", 0⟩ (some (3, "x")) = ⟨true, 3, "x", 1⟩ ∧
    PriorityEventsAccum.format ⟨true, 3, "b", 0⟩ = "b" := by
  refine ⟨?_, ?_, ?_, ?_⟩
  · exact (C8_priority_events ⟨true, 3, "b", 0⟩ 2 "c").2.2.1 rfl (by decide)
  · exact (C8_priority_events ⟨true, 1, "a", 0⟩ 3 "b").1 (by decide)
  · exact (C8_priority_events ⟨true, 3, "b", 0⟩ 3 "x").2.1 rfl
  · exact (C8_priority_events ⟨true, 3, "b", 0⟩ 0 "z").2.2.2.2.1 rfl

/-- Every update with an ignored source IP is the identity on the full
accumulator state (local and shared). -/
theorem webaccum_ignored_id (parseRq : String → Option Int) (s : WebAccum) (ctx : Stats)
    (ip rq : String) (hip : ip ∈ WebAccum.IGNOREIP) :
    WebAccum.update parseRq s ctx (ip, rq) = (s, ctx) := by
  unfold WebAccum.update
  rw [if_pos hip]

/-- Claim C10: ignored-IP traffic leaves a `WebAccum` bucket untouched and
such a bucket formats as the neutral mark. -/
theorem C10_webaccum (parseRq : String → Option Int) (s : WebAccum)
    (ctx : Stats) (rq : String) :
    WebAccum.update parseRq s ctx ("127.0.0.1", rq) = (s, ctx) ∧
    (s.initialized = true → s.stat.count = 0 → s.format = "-") ∧
    (∀ rqs : List String,
      ((rqs.foldl (fun p r => WebAccum.update parseRq p.1 p.2 ("127.0.0.1", r))
        (WebAccum.init.touch, ctx)).1.format = "-" ∧
       (rqs.foldl (fun p r => WebAccum.update parseRq p.1 p.2 ("127.0.0.1", r))
        (WebAccum.init.touch, ctx)).2 = ctx)) := by
  refine ⟨webaccum_ignored_id parseRq s ctx _ rq (by decide), ?_, ?_⟩
  · intro hi hc
    unfold WebAccum.format
    rw [if_neg (by rw [hi]; simp), if_pos hc]
  · intro rqs
    have hfold : ∀ (p : WebAccum × Stats),
        rqs.foldl (fun p r => WebAccum.update parseRq p.1 p.2 ("127.0.0.1", r)) p = p := by
      induction rqs with
      | nil => intro p; rfl
      | cons r rest ih =>
        intro p
        show rest.foldl _ (WebAccum.update parseRq p.1 p.2 ("127.0.0.1", r)) = p
        rw [webaccum_ignored_id parseRq p.1 p.2 _ r (by decide)]
        exact ih p
    rw [hfold]
    exact ⟨rfl, rfl⟩

/-- Witness for C10. -/
theorem C10_webaccum_witness :
    WebAccum.update (fun _ => some 200) WebAccum.init Stats.init ("127.0.0.1", "x") =
      (WebAccum.init, Stats.init) ∧
    WebAccum.format (WebAccum.init.touch) = "-" ∧
    (([ "a", "b" ] : List String).foldl
      (fun p r => WebAccum.update (fun _ => some 200) p.1 p.2 ("127.0.0.1", r))
      (WebAccum.init.touch, Stats.init)).1.format = "-" := by
  refine ⟨?_, ?_, ?_⟩
  · exact (C10_webaccum (fun _ => some 200) WebAccum.init Stats.init "x").1
  · exact (C10_webaccum (fun _ => some 200) WebAccum.init.touch Stats.init "x").2.1 rfl rfl
  · exact ((C10_webaccum (fun _ => some 200) WebAccum.init Stats.init "x").2.2 ["a", "b"]).1

/-- A bitmask update whose tokens are all empty only sets `initialized`. -/
theorem bitmask_update_irrelevant (s : BitmaskAccum) (ctx : List String)
    (es : List String) (h : ∀ t ∈ es, t = "") :
    BitmaskAccum.update s ctx es = ({ s with initialized := true }, ctx) := by
  unfold BitmaskAccum.update
  induction es with
  | nil => rfl
  | cons e rest ih =>
    have he : e = "" := h e (by simp)
    show List.foldl _ (if e = "" then _ else _) rest = _
    rw [if_pos he]
    exact ih (fun t ht => h t (by simp [ht]))

/-- Claim C3: for every variant, a never-resolved, never-updated bucket
formats blank, and a resolved bucket whose updates were all irrelevant
formats as a non-blank neutral mark. -/
theorem C3_blank_distinction :
    (Accumulator.init.format = " " ∧ Accumulator.init.touch.format = "-") ∧
    (BitmaskAccum.init.format = " " ∧
     ∀ (updates : List (List String)) (ctx : List String),
      (∀ es ∈ updates, ∀ t ∈ es, t = "") →
      (updates.foldl (fun p es => BitmaskAccum.update p.1 p.2 es)
        (BitmaskAccum.init.touch, ctx)).1.format = "-") ∧
    (StatsAccum.init.format = " " ∧ StatsAccum.init.touch.format = "-") ∧
    (WebAccum.init.format = " " ∧
     ∀ (parseRq : String → Option Int) (rqs : List String) (ctx : Stats),
      ((rqs.map (fun r => (("127.0.0.1" : String), r))).foldl
        (fun p d => WebAccum.update parseRq p.1 p.2 d)
        (WebAccum.init.touch, ctx)).1.format = "-") ∧
    (PriorityEventsAccum.init.format = " " ∧
     (∀ n : Nat,
      ((List.replicate n (none : Option (Int × String))).foldl
        PriorityEventsAccum.update PriorityEventsAccum.init.touch).format = "?") ∧
     ("?" : String) ≠ " ") := by
  refine ⟨⟨rfl, rfl⟩, ⟨rfl, ?_⟩, ⟨rfl, rfl⟩, ⟨rfl, ?_⟩, ⟨rfl, ?_, by decide⟩⟩
  · intro updates ctx h
    have hfold : ∀ (c : List String),
        updates.foldl (fun p es => BitmaskAccum.update p.1 p.2 es)
          (BitmaskAccum.init.touch, c) = (BitmaskAccum.init.touch, c) := by
      induction updates with
      | nil => intro c; rfl
      | cons es rest ih =>
        intro c
        show rest.foldl _ (BitmaskAccum.update BitmaskAccum.init.touch c es) = _
        rw [bitmask_update_irrelevant _ _ _ (h es (by simp))]
        exact ih (fun e he => h e (by simp [he])) c
    rw [hfold ctx]
    rfl
  · intro parseRq rqs ctx
    have hfold : ∀ (p : WebAccum × Stats),
        (rqs.map (fun r => (("127.0.0.1" : String), r))).foldl
          (fun p d => WebAccum.update parseRq p.1 p.2 d) p = p := by
      induction rqs with
      | nil => intro p; rfl
      | cons r rest ih =>
        intro p
        show (rest.map _).foldl _ (WebAccum.update parseRq p.1 p.2 ("127.0.0.1", r)) = p
        rw [webaccum_ignored_id parseRq p.1 p.2 _ r (by decide)]
        exact ih p
    rw [hfold]
    rfl
  · intro n
    have hfold : ∀ (m : Nat),
        (List.replicate m (none : Option (Int × String))).foldl
          PriorityEventsAccum.update PriorityEventsAccum.init.touch =
          PriorityEventsAccum.init.touch := by
      intro m
      induction m with
      | zero => rfl
      | succ k ih =>
        rw [List.replicate_succ]
        show (List.replicate k _).foldl _
          (PriorityEventsAccum.update PriorityEventsAccum.init.touch none) = _
        exact ih
    rw [hfold n]
    rfl

/-- Witness for C3. -/
theorem C3_blank_distinction_witness :
    (([ [""], [] ] : List (List String)).foldl (fun p es => BitmaskAccum.update p.1 p.2 es)
      (BitmaskAccum.init.touch, [])).1.format = "-" ∧
    (((["x"] : List String).map (fun r => (("127.0.0.1" : String), r))).foldl
      (fun p d => WebAccum.update (fun _ => none) p.1 p.2 d)
      (WebAccum.init.touch, Stats.init)).1.format = "-" ∧
    ((List.replicate 2 (none : Option (Int × String))).foldl
      PriorityEventsAccum.update PriorityEventsAccum.init.touch).format = "?" := by
  refine ⟨?_, ?_, ?_⟩
  · exact C3_blank_distinction.2.1.2 [[""], []] [] (by decide)
  · exact C3_blank_distinction.2.2.2.1.2 (fun _ => none) ["x"] Stats.init
  · exact C3_blank_distinction.2.2.2.2.2.1 2

/-! ### Renderer / engine state machine -/

/-- A granularity policy: `setRange` is the renderer's `setRangeFor`
(byday.py:304-311, computing the row window for a timestamp), `secs` the
seconds coordinate giving Python's `datetime` ordering and subtraction,
`blockNeeded` the renderer's `_isBlockHeaderNeeded` predicate comparing
`self.lastStart` with the new row start. -/
structure Policy (T : Type) where
  setRange : T → RowWin T
  secs : T → Nat
  blockNeeded : T → T → Bool

/-- Bucket-accumulator operations, abstracting the `accumType` parameter
of `DataRow`: `ctxInit` allocates the shared row context, `init` a fresh
bucket, `touch` the `initialized = True` side effect of `_getAccumFor`,
`update` the accumulator's `update` threading the shared context. -/
structure AccumOps (A C E : Type) where
  ctxInit : C
  init : A
  touch : A → A
  update : A → C → E → A × C

/-- `IntervalPrinter` + `DataRow` state: `row` is the open row (`none`
iff `self.start == None`) with its buckets and shared context;
`lastStart` is the start stored by `_printBlockHeader` (byday.py:361);
`log` records the rows printed by `printRow`, each with the value
`_isBlockHeaderNeeded` returned for it (true = a block header line was
printed immediately before the row). -/
structure PrinterState (T A C : Type) where
  row : Option (RowWin T × List A × C)
  lastStart : Option T
  log : List (Bool × T)
deriving DecidableEq

def PrinterState.initial (T A C : Type) : PrinterState T A C := ⟨none, none, []⟩

/-- `DataRow.reset` (byday.py:241-248): ask the policy for the window,
allocate a fresh shared context and `length` fresh buckets. -/
def DataRow.reset {T A C E : Type} (pol : Policy T) (ops : AccumOps A C E) (ts : T) :
    RowWin T × List A × C :=
  let r := pol.setRange ts
  (r, List.replicate r.length ops.init, ops.ctxInit)

/-- `IntervalPrinter.printRow` (byday.py:380-390): when
`_isBlockHeaderNeeded()` holds, `_printBlockHeader(self.dataRow.start)`
runs first and stores `lastStart := start` (byday.py:360-362); then the
row prints.  With `lastStart = None` the subclasses' predicate is itself
unreachable (`begin` always runs first); the base class returns `False`. -/
def IntervalPrinter.printRow {T A C : Type} (pol : Policy T) (st : PrinterState T A C) :
    PrinterState T A C :=
  match st.row with
  | none => st
  | some (r, _, _) =>
    let needed :=
      match st.lastStart with
      | some ls => pol.blockNeeded ls r.startT
      | none => false
    if needed then
      { st with lastStart := some r.startT, log := st.log ++ [(true, r.startT)] }
    else
      { st with log := st.log ++ [(false, r.startT)] }

/-- The successful tail of `DataRow.process`: `_getAccumFor` marked
bucket `d` initialized (byday.py:254) and `a.update(entry)` mutated it
together with the shared context (byday.py:270). -/
def applyUpdate {T A C E : Type} (ops : AccumOps A C E) (r : RowWin T) (bs : List A)
    (c : C) (d : Nat) (e : E) : RowWin T × List A × C :=
  let a := ops.touch (bs.getD d ops.init)
  let ac := ops.update a c e
  (r, bs.set d ac.1, ac.2)

/-- `Renderer.process` → `DataRow.process` (byday.py:257-270) together
with the renderer callbacks it invokes; `none` models an uncaught
exception (a crash inside `_getAccumFor`, or `a.update` with `a = None`
when resolution fails even after a reset). -/
def DataRow.process {T A C E : Type} (pol : Policy T) (ops : AccumOps A C E)
    (st : PrinterState T A C) (ts : T) (e : E) : Option (PrinterState T A C) :=
  let st1 :=
    match st.row with
    | none =>
      -- first entry ever: reset, then `self.render.begin()` prints the
      -- first block header (byday.py:259-261, 356-357)
      let rc := DataRow.reset pol ops ts
      { st with row := some rc, lastStart := some rc.1.startT }
    | some _ => st
  match st1.row with
  | none => none
  | some (r, bs, c) =>
    match DataRow.getAccumFor r (pol.secs ts) with
    | .crash => none
    | .bucket d => some { st1 with row := some (applyUpdate ops r bs c d e) }
    | .outside =>
      -- need a new row: print the current one, reset, resolve again
      let st2 := IntervalPrinter.printRow pol st1
      let rc := DataRow.reset pol ops ts
      match DataRow.getAccumFor rc.1 (pol.secs ts) with
      | .bucket d =>
          some { st2 with row := some (applyUpdate ops rc.1 rc.2.1 rc.2.2 d e) }
      | _ => none

/-- `Renderer.end` (byday.py:291-293): print the open row, if any. -/
def Renderer.endRun {T A C : Type} (pol : Policy T) (st : PrinterState T A C) :
    PrinterState T A C :=
  match st.row with
  | none => st
  | some _ => IntervalPrinter.printRow pol st

def Renderer.runAux {T A C E : Type} (pol : Policy T) (ops : AccumOps A C E) :
    PrinterState T A C → List (T × E) → Option (PrinterState T A C)
  | st, [] => some st
  | st, te :: rest =>
    match DataRow.process pol ops st te.1 te.2 with
    | some st' => Renderer.runAux pol ops st' rest
    | none => none

/-- One summarization pass (`SummarizeLogFile`, byday.py:520-529): submit
every parsed entry in order, then `r.end()`. -/
def Renderer.run {T A C E : Type} (pol : Policy T) (ops : AccumOps A C E)
    (entries : List (T × E)) : Option (PrinterState T A C) :=
  (Renderer.runAux pol ops (PrinterState.initial T A C) entries).map (Renderer.endRun pol)

/-- A policy behaves well at `ts`: the window it sets up contains `ts`,
spans at most `duration_s` seconds, and has positive duration and bucket
count. -/
def Policy.GoodAt {T : Type} (pol : Policy T) (ts : T) : Prop :=
  (pol.setRange ts).startS ≤ pol.secs ts ∧
  pol.secs ts < (pol.setRange ts).finishS ∧
  (pol.setRange ts).finishS - (pol.setRange ts).startS ≤ (pol.setRange ts).durS ∧
  0 < (pol.setRange ts).durS ∧ 0 < (pol.setRange ts).length

/-- Window facts preserved on an open row. -/
def GoodRow {T : Type} (r : RowWin T) : Prop :=
  r.finishS - r.startS ≤ r.durS ∧ 0 < r.durS ∧ 0 < r.length

/-- The sequence of row starts the engine opens while consuming
`entries` from window state `cur` (`none` = no open row): a row is opened
whenever no row is open or the timestamp falls outside the open window. -/
def openedStarts {T E : Type} (pol : Policy T) :
    Option (RowWin T) → List (T × E) → List T
  | _, [] => []
  | none, te :: rest =>
    (pol.setRange te.1).startT :: openedStarts pol (some (pol.setRange te.1)) rest
  | some r, te :: rest =>
    if pol.secs te.1 < r.startS ∨ r.finishS ≤ pol.secs te.1 then
      (pol.setRange te.1).startT :: openedStarts pol (some (pol.setRange te.1)) rest
    else openedStarts pol (some r) rest

theorem getAccumFor_outside {T : Type} (r : RowWin T) (tsS : Nat)
    (h : tsS < r.startS ∨ r.finishS ≤ tsS) :
    DataRow.getAccumFor r tsS = .outside := by
  unfold DataRow.getAccumFor
  rw [if_pos h]

theorem getAccumFor_inside {T : Type} (r : RowWin T) (tsS : Nat)
    (h1 : r.startS ≤ tsS) (h2 : tsS < r.finishS) (h3 : r.finishS - r.startS ≤ r.durS)
    (h4 : 0 < r.durS) (h5 : 0 < r.length) :
    DataRow.getAccumFor r tsS = .bucket ((tsS - r.startS) * r.length / r.durS) := by
  have he : tsS - r.startS < r.durS := by omega
  have hidx : (tsS - r.startS) * r.length / r.durS < r.length := by
    rw [Nat.div_lt_iff_lt_mul h4]
    calc (tsS - r.startS) * r.length < r.durS * r.length :=
          (Nat.mul_lt_mul_right h5).mpr he
      _ = r.length * r.durS := Nat.mul_comm _ _
  unfold DataRow.getAccumFor
  rw [if_neg (by omega), if_neg (by omega)]
  simp only [hidx, if_pos]

theorem printRow_effect {T A C : Type} (pol : Policy T) (st : PrinterState T A C)
    (r : RowWin T) (bs : List A) (c : C) (h : st.row = some (r, bs, c)) :
    (IntervalPrinter.printRow pol st).log.map Prod.snd = st.log.map Prod.snd ++ [r.startT] ∧
    (IntervalPrinter.printRow pol st).row = st.row := by
  obtain ⟨row, ls, log⟩ := st
  simp only at h
  subst h
  unfold IntervalPrinter.printRow
  simp only
  split <;> simp

theorem openedStarts_cons_out {T E : Type} (pol : Policy T) (r : RowWin T) (ts : T)
    (e : E) (rest : List (T × E)) (h : pol.secs ts < r.startS ∨ r.finishS ≤ pol.secs ts) :
    openedStarts pol (some r) ((ts, e) :: rest) =
      (pol.setRange ts).startT :: openedStarts pol (some (pol.setRange ts)) rest := by
  show (if pol.secs (ts, e).1 < r.startS ∨ r.finishS ≤ pol.secs (ts, e).1 then
      (pol.setRange (ts, e).1).startT ::
        openedStarts pol (some (pol.setRange (ts, e).1)) rest
    else openedStarts pol (some r) rest) = _
  rw [if_pos h]

theorem openedStarts_cons_in {T E : Type} (pol : Policy T) (r : RowWin T) (ts : T)
    (e : E) (rest : List (T × E)) (h : ¬(pol.secs ts < r.startS ∨ r.finishS ≤ pol.secs ts)) :
    openedStarts pol (some r) ((ts, e) :: rest) = openedStarts pol (some r) rest := by
  show (if pol.secs (ts, e).1 < r.startS ∨ r.finishS ≤ pol.secs (ts, e).1 then
      (pol.setRange (ts, e).1).startT ::
        openedStarts pol (some (pol.setRange (ts, e).1)) rest
    else openedStarts pol (some r) rest) = _
  rw [if_neg h]

theorem runAux_spec {T A C E : Type} (pol : Policy T) (ops : AccumOps A C E) :
    ∀ (entries : List (T × E)), (∀ te ∈ entries, pol.GoodAt te.1) →
    ∀ (st : PrinterState T A C) (r : RowWin T) (bs : List A) (c : C),
      st.row = some (r, bs, c) → GoodRow r →
      ∃ (st' : PrinterState T A C) (r' : RowWin T) (bs' : List A) (c' : C),
        Renderer.runAux pol ops st entries = some st' ∧
        st'.row = some (r', bs', c') ∧ GoodRow r' ∧
        st'.log.map Prod.snd ++ [r'.startT] =
          st.log.map Prod.snd ++ [r.startT] ++ openedStarts pol (some r) entries := by
  intro entries
  induction entries with
  | nil =>
    intro _ st r bs c hrow hr
    exact ⟨st, r, bs, c, rfl, hrow, hr, by simp [openedStarts]⟩
  | cons te rest ih =>
    intro hG st r bs c hrow hr
    obtain ⟨ts, e⟩ := te
    obtain ⟨row, ls, log⟩ := st
    simp only at hrow
    subst hrow
    by_cases hin : pol.secs ts < r.startS ∨ r.finishS ≤ pol.secs ts
    · -- rollover: render the open row, reset at ts, update there
      have hres := getAccumFor_outside r (pol.secs ts) hin
      have hG1 : pol.GoodAt ts := hG (ts, e) (by simp)
      have hres2 := getAccumFor_inside (pol.setRange ts) (pol.secs ts) hG1.1 hG1.2.1
        hG1.2.2.1 hG1.2.2.2.1 hG1.2.2.2.2
      have hstep : DataRow.process pol ops ⟨some (r, bs, c), ls, log⟩ ts e =
          some { (IntervalPrinter.printRow pol ⟨some (r, bs, c), ls, log⟩) with
                 row := some (applyUpdate ops (pol.setRange ts)
                   (List.replicate (pol.setRange ts).length ops.init) ops.ctxInit
                   ((pol.secs ts - (pol.setRange ts).startS) * (pol.setRange ts).length /
                     (pol.setRange ts).durS) e) } := by
        unfold DataRow.process DataRow.reset
        simp only [hres, hres2]
      have hpr := printRow_effect pol ⟨some (r, bs, c), ls, log⟩ r bs c rfl
      have hrunstep : Renderer.runAux pol ops ⟨some (r, bs, c), ls, log⟩ ((ts, e) :: rest) =
          Renderer.runAux pol ops
            { (IntervalPrinter.printRow pol ⟨some (r, bs, c), ls, log⟩) with
              row := some (applyUpdate ops (pol.setRange ts)
                (List.replicate (pol.setRange ts).length ops.init) ops.ctxInit
                ((pol.secs ts - (pol.setRange ts).startS) * (pol.setRange ts).length /
                  (pol.setRange ts).durS) e) } rest := by
        show (match DataRow.process pol ops ⟨some (r, bs, c), ls, log⟩ ts e with
              | some st' => Renderer.runAux pol ops st' rest
              | none => none) = _
        rw [hstep]
      rw [hrunstep]
      obtain ⟨st', r', bs', c', hrun, hrow', hr', heq⟩ :=
        ih (fun te hte => hG te (by simp [hte]))
          { (IntervalPrinter.printRow pol ⟨some (r, bs, c), ls, log⟩) with
            row := some (applyUpdate ops (pol.setRange ts)
              (List.replicate (pol.setRange ts).length ops.init) ops.ctxInit
              ((pol.secs ts - (pol.setRange ts).startS) * (pol.setRange ts).length /
                (pol.setRange ts).durS) e) }
          (pol.setRange ts) _ _ rfl ⟨hG1.2.2.1, hG1.2.2.2.1, hG1.2.2.2.2⟩
      refine ⟨st', r', bs', c', hrun, hrow', hr', ?_⟩
      rw [openedStarts_cons_out pol r ts e rest hin, heq]
      simp only [hpr.1]
      simp
    · -- in window: update the resolved bucket, nothing rendered
      push_neg at hin
      have hres := getAccumFor_inside r (pol.secs ts) (by omega) (by omega) hr.1 hr.2.1 hr.2.2
      have hstep : DataRow.process pol ops ⟨some (r, bs, c), ls, log⟩ ts e =
          some ⟨some (applyUpdate ops r bs c
            ((pol.secs ts - r.startS) * r.length / r.durS) e), ls, log⟩ := by
        unfold DataRow.process
        simp only [hres]
      have hrunstep : Renderer.runAux pol ops ⟨some (r, bs, c), ls, log⟩ ((ts, e) :: rest) =
          Renderer.runAux pol ops
            ⟨some (applyUpdate ops r bs c
              ((pol.secs ts - r.startS) * r.length / r.durS) e), ls, log⟩ rest := by
        show (match DataRow.process pol ops ⟨some (r, bs, c), ls, log⟩ ts e with
              | some st' => Renderer.runAux pol ops st' rest
              | none => none) = _
        rw [hstep]
      rw [hrunstep]
      obtain ⟨st', r', bs', c', hrun, hrow', hr', heq⟩ :=
        ih (fun te hte => hG te (by simp [hte]))
          ⟨some (applyUpdate ops r bs c ((pol.secs ts - r.startS) * r.length / r.durS) e),
            ls, log⟩ r _ _ rfl hr
      refine ⟨st', r', bs', c', hrun, hrow', hr', ?_⟩
      rw [openedStarts_cons_in pol r ts e rest (by omega), heq]

/-- Claim C2: every completed row is rendered exactly once — the rendered
row sequence equals the opened row sequence (end-of-stream flushes the
open row; an empty stream renders nothing). -/
theorem C2_render_once {T A C E : Type} (pol : Policy T) (ops : AccumOps A C E)
    (entries : List (T × E)) (hG : ∀ te ∈ entries, pol.GoodAt te.1) :
    ∃ st, Renderer.run pol ops entries = some st ∧
      st.log.map Prod.snd = openedStarts pol none entries ∧
      (entries = [] → st.log = []) := by
  cases entries with
  | nil => exact ⟨PrinterState.initial T A C, rfl, rfl, fun _ => rfl⟩
  | cons te rest =>
    obtain ⟨ts, e⟩ := te
    have hG1 : pol.GoodAt ts := hG (ts, e) (by simp)
    have hres := getAccumFor_inside (pol.setRange ts) (pol.secs ts) hG1.1 hG1.2.1
      hG1.2.2.1 hG1.2.2.2.1 hG1.2.2.2.2
    have hstep : DataRow.process pol ops (PrinterState.initial T A C) ts e =
        some ⟨some (applyUpdate ops (pol.setRange ts)
          (List.replicate (pol.setRange ts).length ops.init) ops.ctxInit
          ((pol.secs ts - (pol.setRange ts).startS) * (pol.setRange ts).length /
            (pol.setRange ts).durS) e),
          some (pol.setRange ts).startT, []⟩ := by
      unfold DataRow.process PrinterState.initial DataRow.reset
      simp only [hres]
    have hrunstep : Renderer.runAux pol ops (PrinterState.initial T A C) ((ts, e) :: rest) =
        Renderer.runAux pol ops
          ⟨some (applyUpdate ops (pol.setRange ts)
            (List.replicate (pol.setRange ts).length ops.init) ops.ctxInit
            ((pol.secs ts - (pol.setRange ts).startS) * (pol.setRange ts).length /
              (pol.setRange ts).durS) e),
            some (pol.setRange ts).startT, []⟩ rest := by
      show (match DataRow.process pol ops (PrinterState.initial T A C) ts e with
            | some st' => Renderer.runAux pol ops st' rest
            | none => none) = _
      rw [hstep]
    obtain ⟨st', r', bs', c', hrun, hrow', hr', heq⟩ :=
      runAux_spec pol ops rest (fun te hte => hG te (by simp [hte]))
        ⟨some (applyUpdate ops (pol.setRange ts)
          (List.replicate (pol.setRange ts).length ops.init) ops.ctxInit
          ((pol.secs ts - (pol.setRange ts).startS) * (pol.setRange ts).length /
            (pol.setRange ts).durS) e),
          some (pol.setRange ts).startT, []⟩
        (pol.setRange ts) _ _ rfl ⟨hG1.2.2.1, hG1.2.2.2.1, hG1.2.2.2.2⟩
    have hpr := printRow_effect pol st' r' bs' c' hrow'
    refine ⟨IntervalPrinter.printRow pol st', ?_, ?_, by simp⟩
    · unfold Renderer.run
      rw [hrunstep, hrun]
      show some (Renderer.endRun pol st') = _
      unfold Renderer.endRun
      rw [hrow']
    · rw [hpr.1]
      rw [show openedStarts pol none ((ts, e) :: rest) =
        (pol.setRange ts).startT :: openedStarts pol (some (pol.setRange ts)) rest from rfl]
      have := heq
      simp only [List.map_nil, List.nil_append] at this
      rw [this]
      rfl

/-- `HourPrinter.startFor` (byday.py:429-430). -/
def HourPrinter.startFor (ts : PyDateTime) : PyDateTime :=
  { ts with minute := 0, second := 0 }

/-- `HourPrinter._isBlockHeaderNeeded` (byday.py:438-441): the block
header (date line) is reprinted when year, month or day changed between
`self.lastStart` and the new row start. -/
def HourPrinter.isBlockHeaderNeeded (lastStart cur : PyDateTime) : Bool :=
  lastStart.year != cur.year || lastStart.month != cur.month || lastStart.day != cur.day

/-- The hour-granularity policy (byday.py:423-441): `rowDuration` is
3600 s and `Renderer.setRangeFor` (byday.py:304-311) gives the window
`[startFor ts, startFor ts + 3600)` with `duration_s = 3600`. -/
def hourPolicy (length : Nat) : Policy PyDateTime :=
  { setRange := fun ts =>
      { startT := HourPrinter.startFor ts,
        startS := (HourPrinter.startFor ts).toSecs,
        finishS := (HourPrinter.startFor ts).toSecs + 3600,
        durS := 3600, length := length },
    secs := PyDateTime.toSecs,
    blockNeeded := HourPrinter.isBlockHeaderNeeded }

/-- The default wiring `accumType = Accumulator` with its stateless
`Context`. -/
def presenceOps : AccumOps Accumulator Unit Unit :=
  ⟨(), Accumulator.init, Accumulator.touch, fun a _ _ => (a.update, ())⟩

theorem hourPolicy_goodAt (len : Nat) (hlen : 0 < len) (ts : PyDateTime) (hv : ts.Valid) :
    (hourPolicy len).GoodAt ts := by
  obtain ⟨-, -, -, -, -, hh, hmin, hs⟩ := hv
  have h1 : ({ ts with minute := 0, second := 0 } : PyDateTime).toSecs ≤ ts.toSecs ∧
      ts.toSecs < ({ ts with minute := 0, second := 0 } : PyDateTime).toSecs + 3600 := by
    unfold PyDateTime.toSecs PyDateTime.toDays
    simp only
    omega
  exact ⟨h1.1, h1.2,
    show ((HourPrinter.startFor ts).toSecs + 3600) - (HourPrinter.startFor ts).toSecs ≤ 3600
      by omega,
    show (0:Nat) < 3600 by omega, hlen⟩

def hourEntriesDemo : List (PyDateTime × Unit) :=
  [(⟨2025, 1, 15, 10, 30, 0⟩, ()), (⟨2025, 1, 15, 10, 45, 0⟩, ()), (⟨2025, 1, 15, 11, 5, 0⟩, ())]

/-- Witness for C2. -/
theorem C2_render_once_witness :
    (∃ st, Renderer.run (hourPolicy 6) presenceOps hourEntriesDemo = some st ∧
      st.log.map Prod.snd = openedStarts (hourPolicy 6) none hourEntriesDemo ∧
      (hourEntriesDemo = [] → st.log = [])) ∧
    openedStarts (hourPolicy 6) none hourEntriesDemo =
      [⟨2025, 1, 15, 10, 0, 0⟩, ⟨2025, 1, 15, 11, 0, 0⟩] := by
  constructor
  · apply C2_render_once
    intro te hte
    apply hourPolicy_goodAt 6 (by omega) te.1
    fin_cases hte <;> decide
  · decide

/-- Claim C6: for an open row, a timestamp strictly earlier than `start`
takes exactly the same flush-and-restart path as a too-late timestamp:
render the open row, reset anchored at the incoming timestamp, apply the
update to the freshly resolved bucket — never rejected, never buffered. -/
theorem C6_early_timestamp {T A C E : Type} (pol : Policy T) (ops : AccumOps A C E)
    (st : PrinterState T A C) (r : RowWin T) (bs : List A) (c : C) (ts : T) (e : E)
    (hrow : st.row = some (r, bs, c)) (hG : pol.GoodAt ts) :
    (pol.secs ts < r.startS →
      DataRow.process pol ops st ts e =
        some { (IntervalPrinter.printRow pol st) with
               row := some (applyUpdate ops (pol.setRange ts)
                 (List.replicate (pol.setRange ts).length ops.init) ops.ctxInit
                 ((pol.secs ts - (pol.setRange ts).startS) * (pol.setRange ts).length /
                   (pol.setRange ts).durS) e) }) ∧
    (r.finishS ≤ pol.secs ts →
      DataRow.process pol ops st ts e =
        some { (IntervalPrinter.printRow pol st) with
               row := some (applyUpdate ops (pol.setRange ts)
                 (List.replicate (pol.setRange ts).length ops.init) ops.ctxInit
                 ((pol.secs ts - (pol.setRange ts).startS) * (pol.setRange ts).length /
                   (pol.setRange ts).durS) e) }) ∧
    (IntervalPrinter.printRow pol st).log.map Prod.snd = st.log.map Prod.snd ++ [r.startT] := by
  have hres2 := getAccumFor_inside (pol.setRange ts) (pol.secs ts) hG.1 hG.2.1
    hG.2.2.1 hG.2.2.2.1 hG.2.2.2.2
  obtain ⟨row, ls, log⟩ := st
  simp only at hrow
  subst hrow
  refine ⟨?_, ?_, (printRow_effect pol ⟨some (r, bs, c), ls, log⟩ r bs c rfl).1⟩
  · intro hearly
    have hres := getAccumFor_outside r (pol.secs ts) (Or.inl hearly)
    unfold DataRow.process DataRow.reset
    simp only [hres, hres2]
  · intro hlate
    have hres := getAccumFor_outside r (pol.secs ts) (Or.inr hlate)
    unfold DataRow.process DataRow.reset
    simp only [hres, hres2]

def demoRow6 : RowWin PyDateTime := (hourPolicy 6).setRange ⟨2025, 1, 15, 10, 30, 0⟩

def demoState6 : PrinterState PyDateTime Accumulator Unit :=
  ⟨some (demoRow6, List.replicate 6 Accumulator.init, ()), some demoRow6.startT, []⟩

/-- Witness for C6. -/
theorem C6_early_timestamp_witness :
    PyDateTime.toSecs ⟨2025, 1, 15, 9, 15, 0⟩ < demoRow6.startS ∧
    DataRow.process (hourPolicy 6) presenceOps demoState6 ⟨2025, 1, 15, 9, 15, 0⟩ () =
      some { (IntervalPrinter.printRow (hourPolicy 6) demoState6) with
             row := some (applyUpdate presenceOps
               ((hourPolicy 6).setRange ⟨2025, 1, 15, 9, 15, 0⟩)
               (List.replicate ((hourPolicy 6).setRange ⟨2025, 1, 15, 9, 15, 0⟩).length
                 presenceOps.init) presenceOps.ctxInit
               ((PyDateTime.toSecs ⟨2025, 1, 15, 9, 15, 0⟩ -
                   ((hourPolicy 6).setRange ⟨2025, 1, 15, 9, 15, 0⟩).startS) *
                 ((hourPolicy 6).setRange ⟨2025, 1, 15, 9, 15, 0⟩).length /
                 ((hourPolicy 6).setRange ⟨2025, 1, 15, 9, 15, 0⟩).durS) ()) } := by
  refine ⟨by decide, ?_⟩
  exact (C6_early_timestamp (hourPolicy 6) presenceOps demoState6 demoRow6
    (List.replicate 6 Accumulator.init) () ⟨2025, 1, 15, 9, 15, 0⟩ () rfl
    (hourPolicy_goodAt 6 (by omega) _ (by decide))).1 (by decide)

/-! ### Axis / scale generation (`IntervalPrinter.makeScale`) -/

/-- The candidate-selection loop `for nt in tryTickCount: if l//nt >= 4:
s = nt; break` (byday.py:343-347); `0` is the sentinel `s = 0` left when
no candidate qualifies. -/
def IntervalPrinter.findTick (l : Nat) : List Nat → Nat
  | [] => 0
  | nt :: rest => if 4 ≤ l / nt then nt else IntervalPrinter.findTick l rest

/-- The character offset `int(l*(i*step/float(maxticks)))` of tick `i`
(byday.py:351), with `step = maxticks/s` and the float arithmetic carried
out exactly over ℚ (all quantities are non-negative, so `int` floors). -/
def IntervalPrinter.tickPos (l m s i : Nat) : Nat :=
  (Rat.floor ((l : ℚ) * ((i : ℚ) * ((m : ℚ) / (s : ℚ)) / (m : ℚ)))).toNat

/-- The tick label value `int(i*step)` of `"%d"%(int(i*step))`
(byday.py:352). -/
def IntervalPrinter.tickLabel (m s i : Nat) : Nat :=
  (Rat.floor ((i : ℚ) * ((m : ℚ) / (s : ℚ)))).toNat

/-- The header-building loop `for i in range(s)` (byday.py:350-352):
append filler up to the tick position (none when the position is already
passed — Python's `'·' * negative` is empty), then the decimal label. -/
def IntervalPrinter.scaleFold (filler : Char) (l m s : Nat) : Nat → List Char
  | 0 => []
  | i + 1 =>
    let hdr := IntervalPrinter.scaleFold filler l m s i
    hdr ++ List.replicate (IntervalPrinter.tickPos l m s i - hdr.length) filler ++
      (Nat.repr (IntervalPrinter.tickLabel m s i)).toList

/-- `IntervalPrinter.makeScale` (byday.py:339-354); `none` models the
uncaught exception — `IndexError` on an empty candidate list
(`tryTickCount[0]`), or `ZeroDivisionError` in `step = maxticks/s` when
no candidate qualifies. -/
def IntervalPrinter.makeScale (filler : Char) (l : Nat) (tryTickCount : List Nat) :
    Option (List Char) :=
  match tryTickCount with
  | [] => none
  | m :: _ =>
    let s := IntervalPrinter.findTick l tryTickCount
    if s = 0 then none
    else
      let hdr := IntervalPrinter.scaleFold filler l m s s
      some (hdr ++ List.replicate (l - hdr.length) filler)

/-- The candidate tick counts of `MinutePrinter`/`HourPrinter`
(byday.py:396, 427). -/
def minuteTicks : List Nat := [60, 12, 6, 4, 2, 1]

/-- The candidate tick counts of `DayPrinter` (byday.py:447). -/
def dayTicks : List Nat := [24, 12, 8, 4, 2, 1]

/-- A `DataRow` whose `duration_s` was explicitly zeroed through
`setDuration(timedelta(0))` — the public `DataRow` API accepts it. -/
def zeroDurationRow : RowWin PyDateTime :=
  { startT := ⟨2025, 1, 15, 0, 0, 0⟩, startS := 0, finishS := 100, durS := 0, length := 5 }

/-- Claim C7 (code bug): no setup-time validation exists.  The Day (and
Minute/Hour) printers crash on a zero bucket count only incidentally —
an unhandled `ZeroDivisionError` inside `makeScale` — while the Month
printer sets its row up successfully with zero buckets and the first
submitted entry crashes inside `_getAccumFor` (IndexError); a zero
`duration_s` likewise crashes at the first resolution
(ZeroDivisionError), never at setup. -/
theorem C7_no_setup_validation :
    IntervalPrinter.makeScale '·' 0 dayTicks = none ∧
    IntervalPrinter.makeScale '·' 3 dayTicks = none ∧
    MonthPrinter.setRangeFor ⟨2025, 2, 15, 12, 0, 0⟩ 0 =
      some { startT := ⟨2025, 2, 1, 0, 0, 0⟩, startS := 63873964800,
             finishS := 63876384000, durS := 31 * 86400, length := 0 } ∧
    DataRow.getAccumFor
      { startT := (⟨2025, 2, 1, 0, 0, 0⟩ : PyDateTime), startS := 63873964800,
        finishS := 63876384000, durS := 31 * 86400, length := (0 : Nat) }
      63873964800 = .crash ∧
    Renderer.run (hourPolicy 0) presenceOps [(⟨2025, 1, 15, 10, 30, 0⟩, ())] = none ∧
    DataRow.getAccumFor zeroDurationRow 0 = .crash := by
  decide

/-! ### Block-header continuity (hour granularity) -/

/-- Same calendar day: the complement of
`HourPrinter._isBlockHeaderNeeded`'s condition. -/
def sameDay (a b : PyDateTime) : Prop :=
  a.year = b.year ∧ a.month = b.month ∧ a.day = b.day

theorem isBlockHeaderNeeded_iff (a b : PyDateTime) :
    HourPrinter.isBlockHeaderNeeded a b = true ↔ ¬ sameDay a b := by
  unfold HourPrinter.isBlockHeaderNeeded sameDay
  simp [bne_iff_ne]
  tauto

/-- Header correctness between two consecutively printed rows: the later
row carries a block header exactly when its start is in a different
calendar day than the earlier row's start. -/
def HdrRel (p q : Bool × PyDateTime) : Prop := q.1 = true ↔ ¬ sameDay p.2 q.2

theorem printRow_hdr {A C : Type} (len : Nat) (rr : RowWin PyDateTime) (bs : List A) (c : C)
    (ls : PyDateTime) (log : List (Bool × PyDateTime)) :
    IntervalPrinter.printRow (hourPolicy len) ⟨some (rr, bs, c), some ls, log⟩ =
      ⟨some (rr, bs, c),
       some (if HourPrinter.isBlockHeaderNeeded ls rr.startT then rr.startT else ls),
       log ++ [(HourPrinter.isBlockHeaderNeeded ls rr.startT, rr.startT)]⟩ := by
  unfold IntervalPrinter.printRow hourPolicy
  simp only
  by_cases hb : HourPrinter.isBlockHeaderNeeded ls rr.startT = true
  · rw [if_pos hb, if_pos hb, hb]
  · rw [if_neg hb, if_neg hb]
    congr 2
    simp at hb
    rw [hb]

theorem hdr_append (log : List (Bool × PyDateTime)) (ls t : PyDateTime)
    (hchain : List.Chain' HdrRel log)
    (hlast : ∀ p ∈ log.getLast?, sameDay ls p.2) :
    List.Chain' HdrRel (log ++ [(HourPrinter.isBlockHeaderNeeded ls t, t)]) ∧
    (∀ p ∈ (log ++ [(HourPrinter.isBlockHeaderNeeded ls t, t)]).getLast?,
      sameDay (if HourPrinter.isBlockHeaderNeeded ls t then t else ls) p.2) := by
  constructor
  · rw [List.chain'_append]
    refine ⟨hchain, List.chain'_singleton _, ?_⟩
    intro x hx y hy
    simp only [List.head?_cons, Option.mem_def, Option.some.injEq] at hy
    subst hy
    have hsxd := hlast x hx
    unfold HdrRel
    simp only
    rw [isBlockHeaderNeeded_iff]
    unfold sameDay at hsxd ⊢
    constructor <;> intro h1 h2 <;> exact h1 (by omega)
  · intro p hp
    rw [List.getLast?_concat] at hp
    simp only [Option.mem_def, Option.some.injEq] at hp
    subst hp
    by_cases hb : HourPrinter.isBlockHeaderNeeded ls t = true
    · rw [if_pos hb]
      exact ⟨rfl, rfl, rfl⟩
    · rw [if_neg hb]
      have hiff := isBlockHeaderNeeded_iff ls t
      simp only [hb, false_iff, not_not] at hiff
      simpa using hiff

theorem runAux_hdr {A C E : Type} (len : Nat) (ops : AccumOps A C E) :
    ∀ (entries : List (PyDateTime × E)),
      (∀ te ∈ entries, (hourPolicy len).GoodAt te.1) →
    ∀ (st : PrinterState PyDateTime A C) (r : RowWin PyDateTime) (bs : List A) (c : C)
      (ls : PyDateTime),
      st.row = some (r, bs, c) → GoodRow r → st.lastStart = some ls →
      List.Chain' HdrRel st.log →
      (∀ p ∈ st.log.getLast?, sameDay ls p.2) →
      (st.log = [] → ls = r.startT) →
      ∃ (st' : PrinterState PyDateTime A C) (r' : RowWin PyDateTime) (bs' : List A)
        (c' : C) (ls' : PyDateTime),
        Renderer.runAux (hourPolicy len) ops st entries = some st' ∧
        st'.row = some (r', bs', c') ∧ GoodRow r' ∧ st'.lastStart = some ls' ∧
        List.Chain' HdrRel st'.log ∧
        (∀ p ∈ st'.log.getLast?, sameDay ls' p.2) ∧
        (st'.log = [] → ls' = r'.startT) := by
  intro entries
  induction entries with
  | nil =>
    intro _ st r bs c ls h1 h2 h3 h4 h5 h6
    exact ⟨st, r, bs, c, ls, rfl, h1, h2, h3, h4, h5, h6⟩
  | cons te rest ih =>
    intro hG st r bs c ls hrow hr hls hchain hlast hempty
    obtain ⟨ts, e⟩ := te
    obtain ⟨row, ls0, log⟩ := st
    simp only at hrow hls hchain hlast hempty
    subst hrow
    subst hls
    by_cases hin : (hourPolicy len).secs ts < r.startS ∨ r.finishS ≤ (hourPolicy len).secs ts
    · -- rollover: printRow, reset at ts, resolve, update
      have hres := getAccumFor_outside r ((hourPolicy len).secs ts) hin
      have hG1 : (hourPolicy len).GoodAt ts := hG (ts, e) (by simp)
      have hres2 := getAccumFor_inside ((hourPolicy len).setRange ts) ((hourPolicy len).secs ts)
        hG1.1 hG1.2.1 hG1.2.2.1 hG1.2.2.2.1 hG1.2.2.2.2
      have hstep : DataRow.process (hourPolicy len) ops ⟨some (r, bs, c), some ls, log⟩ ts e =
          some ⟨some (applyUpdate ops ((hourPolicy len).setRange ts)
              (List.replicate ((hourPolicy len).setRange ts).length ops.init) ops.ctxInit
              (((hourPolicy len).secs ts - ((hourPolicy len).setRange ts).startS) *
                ((hourPolicy len).setRange ts).length /
                ((hourPolicy len).setRange ts).durS) e),
            some (if HourPrinter.isBlockHeaderNeeded ls r.startT then r.startT else ls),
            log ++ [(HourPrinter.isBlockHeaderNeeded ls r.startT, r.startT)]⟩ := by
        unfold DataRow.process DataRow.reset
        simp only [hres, hres2, printRow_hdr len r bs c ls log]
      have hrunstep : Renderer.runAux (hourPolicy len) ops ⟨some (r, bs, c), some ls, log⟩
          ((ts, e) :: rest) =
          Renderer.runAux (hourPolicy len) ops
            ⟨some (applyUpdate ops ((hourPolicy len).setRange ts)
              (List.replicate ((hourPolicy len).setRange ts).length ops.init) ops.ctxInit
              (((hourPolicy len).secs ts - ((hourPolicy len).setRange ts).startS) *
                ((hourPolicy len).setRange ts).length /
                ((hourPolicy len).setRange ts).durS) e),
             some (if HourPrinter.isBlockHeaderNeeded ls r.startT then r.startT else ls),
             log ++ [(HourPrinter.isBlockHeaderNeeded ls r.startT, r.startT)]⟩ rest := by
        simp only [Renderer.runAux]
        rw [hstep]
      rw [hrunstep]
      have happ := hdr_append log ls r.startT hchain hlast
      exact ih (fun te hte => hG te (by simp [hte]))
        ⟨some (applyUpdate ops ((hourPolicy len).setRange ts)
          (List.replicate ((hourPolicy len).setRange ts).length ops.init) ops.ctxInit
          (((hourPolicy len).secs ts - ((hourPolicy len).setRange ts).startS) *
            ((hourPolicy len).setRange ts).length /
            ((hourPolicy len).setRange ts).durS) e),
         some (if HourPrinter.isBlockHeaderNeeded ls r.startT then r.startT else ls),
         log ++ [(HourPrinter.isBlockHeaderNeeded ls r.startT, r.startT)]⟩
        ((hourPolicy len).setRange ts) _ _ _
        rfl ⟨hG1.2.2.1, hG1.2.2.2.1, hG1.2.2.2.2⟩ rfl happ.1 happ.2
        (by intro h; exact absurd h (by simp))
    · -- in window: nothing rendered, header state unchanged
      push_neg at hin
      have hres := getAccumFor_inside r ((hourPolicy len).secs ts) (by omega) (by omega)
        hr.1 hr.2.1 hr.2.2
      have hstep : DataRow.process (hourPolicy len) ops ⟨some (r, bs, c), some ls, log⟩ ts e =
          some ⟨some (applyUpdate ops r bs c
            (((hourPolicy len).secs ts - r.startS) * r.length / r.durS) e), some ls, log⟩ := by
        unfold DataRow.process
        simp only [hres]
      have hrunstep : Renderer.runAux (hourPolicy len) ops ⟨some (r, bs, c), some ls, log⟩
          ((ts, e) :: rest) =
          Renderer.runAux (hourPolicy len) ops
            ⟨some (applyUpdate ops r bs c
              (((hourPolicy len).secs ts - r.startS) * r.length / r.durS) e),
             some ls, log⟩ rest := by
        simp only [Renderer.runAux]
        rw [hstep]
      rw [hrunstep]
      exact ih (fun te hte => hG te (by simp [hte]))
        ⟨some (applyUpdate ops r bs c
          (((hourPolicy len).secs ts - r.startS) * r.length / r.durS) e), some ls, log⟩
        r _ _ _ rfl hr rfl hchain hlast hempty

/-- Claim C5: at hour granularity, every rendered row is preceded by a
block header exactly when the year, month or day of its start differs
from the previously rendered row's start (the very first row's header is
printed unconditionally by `begin`). -/
theorem C5_hour_block_header {A C E : Type} (len : Nat) (hlen : 0 < len)
    (ops : AccumOps A C E) (entries : List (PyDateTime × E))
    (hv : ∀ te ∈ entries, (te.1).Valid) :
    ∃ st, Renderer.run (hourPolicy len) ops entries = some st ∧
      List.Chain' HdrRel st.log := by
  have hG : ∀ te ∈ entries, (hourPolicy len).GoodAt te.1 :=
    fun te hte => hourPolicy_goodAt len hlen te.1 (hv te hte)
  cases entries with
  | nil => exact ⟨PrinterState.initial _ _ _, rfl, List.chain'_nil⟩
  | cons te rest =>
    obtain ⟨ts, e⟩ := te
    have hG1 : (hourPolicy len).GoodAt ts := hG (ts, e) (by simp)
    have hres := getAccumFor_inside ((hourPolicy len).setRange ts) ((hourPolicy len).secs ts)
      hG1.1 hG1.2.1 hG1.2.2.1 hG1.2.2.2.1 hG1.2.2.2.2
    have hstep : DataRow.process (hourPolicy len) ops
        (PrinterState.initial PyDateTime A C) ts e =
        some ⟨some (applyUpdate ops ((hourPolicy len).setRange ts)
          (List.replicate ((hourPolicy len).setRange ts).length ops.init) ops.ctxInit
          (((hourPolicy len).secs ts - ((hourPolicy len).setRange ts).startS) *
            ((hourPolicy len).setRange ts).length /
            ((hourPolicy len).setRange ts).durS) e),
          some ((hourPolicy len).setRange ts).startT, []⟩ := by
      unfold DataRow.process PrinterState.initial DataRow.reset
      simp only [hres]
    have hrunstep : Renderer.runAux (hourPolicy len) ops
        (PrinterState.initial PyDateTime A C) ((ts, e) :: rest) =
        Renderer.runAux (hourPolicy len) ops
          ⟨some (applyUpdate ops ((hourPolicy len).setRange ts)
            (List.replicate ((hourPolicy len).setRange ts).length ops.init) ops.ctxInit
            (((hourPolicy len).secs ts - ((hourPolicy len).setRange ts).startS) *
              ((hourPolicy len).setRange ts).length /
              ((hourPolicy len).setRange ts).durS) e),
            some ((hourPolicy len).setRange ts).startT, []⟩ rest := by
      simp only [Renderer.runAux]
      rw [hstep]
    obtain ⟨st', r', bs', c', ls', hrun, hrow', hr', hls', hchain', hlast', hempty'⟩ :=
      runAux_hdr len ops rest (fun te hte => hG te (by simp [hte]))
        ⟨some (applyUpdate ops ((hourPolicy len).setRange ts)
          (List.replicate ((hourPolicy len).setRange ts).length ops.init) ops.ctxInit
          (((hourPolicy len).secs ts - ((hourPolicy len).setRange ts).startS) *
            ((hourPolicy len).setRange ts).length /
            ((hourPolicy len).setRange ts).durS) e),
          some ((hourPolicy len).setRange ts).startT, []⟩
        ((hourPolicy len).setRange ts) _ _ _ rfl
        ⟨hG1.2.2.1, hG1.2.2.2.1, hG1.2.2.2.2⟩ rfl List.chain'_nil (by simp) (fun _ => rfl)
    obtain ⟨row', lsF, logF⟩ := st'
    simp only at hrow' hls' hchain' hlast'
    subst hrow'
    subst hls'
    have happ := hdr_append logF ls' r'.startT hchain' hlast'
    refine ⟨IntervalPrinter.printRow (hourPolicy len)
      ⟨some (r', bs', c'), some ls', logF⟩, ?_, ?_⟩
    · unfold Renderer.run
      rw [hrunstep, hrun]
      rfl
    · rw [printRow_hdr len r' bs' c' ls' logF]
      exact happ.1

def hourEntriesC5 : List (PyDateTime × Unit) :=
  [(⟨2025, 1, 15, 10, 30, 0⟩, ()), (⟨2025, 1, 15, 11, 15, 0⟩, ()),
   (⟨2025, 1, 16, 0, 1, 0⟩, ())]

/-- Witness for C5: two consecutive hour rows inside 2025-01-15 print
without repeating the date header, the first row of 2025-01-16 reprints
it. -/
theorem C5_hour_block_header_witness :
    (∃ st, Renderer.run (hourPolicy 6) presenceOps hourEntriesC5 = some st ∧
      List.Chain' HdrRel st.log) ∧
    (Renderer.run (hourPolicy 6) presenceOps hourEntriesC5).map
      (fun st => st.log.map Prod.fst) = some [false, false, true] := by
  constructor
  · apply C5_hour_block_header 6 (by omega) presenceOps hourEntriesC5
    intro te hte
    fin_cases hte <;> decide
  · decide

/-! ### Claim C9: axis generation -/

theorem ratFloor_natDiv (a b : Nat) : (Rat.floor ((a : ℚ) / (b : ℚ))).toNat = a / b := by
  have h1 : Rat.floor ((a : ℚ) / (b : ℚ)) = ⌊((a : ℚ) / (b : ℚ))⌋ := rfl
  rw [h1, Int.floor_toNat]
  rw [show ((b : ℚ)) = ((b : ℕ) : ℚ) from rfl]
  rw [Nat.floor_div_nat]
  simp

theorem tickPos_eq (l m s i : Nat) (hm : 0 < m) (hs : 0 < s) :
    IntervalPrinter.tickPos l m s i = l * i / s := by
  unfold IntervalPrinter.tickPos
  have hmq : (m : ℚ) ≠ 0 := Nat.cast_ne_zero.mpr (by omega)
  have hsq : (s : ℚ) ≠ 0 := Nat.cast_ne_zero.mpr (by omega)
  have hq : (l : ℚ) * ((i : ℚ) * ((m : ℚ) / (s : ℚ)) / (m : ℚ)) =
      ((l * i : Nat) : ℚ) / ((s : Nat) : ℚ) := by
    push_cast
    field_simp
    ring
  rw [hq, ratFloor_natDiv]

theorem tickLabel_eq (m s i : Nat) (hm : 0 < m) (hs : 0 < s) :
    IntervalPrinter.tickLabel m s i = i * m / s := by
  unfold IntervalPrinter.tickLabel
  have hmq : (m : ℚ) ≠ 0 := Nat.cast_ne_zero.mpr (by omega)
  have hsq : (s : ℚ) ≠ 0 := Nat.cast_ne_zero.mpr (by omega)
  have hq : (i : ℚ) * ((m : ℚ) / (s : ℚ)) =
      ((i * m : Nat) : ℚ) / ((s : Nat) : ℚ) := by
    push_cast
    field_simp
  rw [hq, ratFloor_natDiv]

theorem reprLen_le_two : ∀ n, n < 100 → (Nat.repr n).length ≤ 2 := by decide

theorem findTick_spec (l : Nat) : ∀ ticks : List Nat, (∃ nt ∈ ticks, 4 ≤ l / nt) →
    IntervalPrinter.findTick l ticks ≠ 0 ∧ 4 ≤ l / IntervalPrinter.findTick l ticks := by
  intro ticks
  induction ticks with
  | nil => rintro ⟨nt, hmem, _⟩; cases hmem
  | cons nt rest ih =>
    rintro ⟨nt', hmem, hge⟩
    unfold IntervalPrinter.findTick
    by_cases hc : 4 ≤ l / nt
    · rw [if_pos hc]
      refine ⟨?_, hc⟩
      intro h0
      rw [h0] at hc
      simp at hc
    · rw [if_neg hc]
      have hmem' : nt' ∈ rest := by
        rcases List.mem_cons.mp hmem with h | h
        · subst h; exact absurd hge hc
        · exact h
      exact ih ⟨nt', hmem', hge⟩

theorem findTick_eq_find? (l : Nat) : ∀ ticks : List Nat,
    IntervalPrinter.findTick l ticks ≠ 0 →
    ticks.find? (fun nt => decide (4 ≤ l / nt)) =
      some (IntervalPrinter.findTick l ticks) := by
  intro ticks
  induction ticks with
  | nil => intro h; exact absurd rfl h
  | cons nt rest ih =>
    intro h
    unfold IntervalPrinter.findTick at h ⊢
    by_cases hc : 4 ≤ l / nt
    · rw [if_pos hc]
      rw [List.find?_cons_of_pos _ (by simp [hc])]
    · rw [if_neg hc] at h ⊢
      rw [List.find?_cons_of_neg _ (by simp [hc])]
      exact ih h

theorem natDiv_gap (l s i : Nat) (hs : 0 < s) : l * i / s + l / s ≤ l * (i + 1) / s := by
  rw [Nat.le_div_iff_mul_le hs]
  have h1 := Nat.div_mul_le_self (l * i) s
  have h2 := Nat.div_mul_le_self l s
  have h3 : (l * i / s + l / s) * s = (l * i / s) * s + (l / s) * s := by ring
  have h4 : l * (i + 1) = l * i + l := by ring
  omega

theorem label_lt (m s i : Nat) (hm : 0 < m) (hs : 0 < s) (hi : i < s) : i * m / s < m := by
  rw [Nat.div_lt_iff_lt_mul hs]
  calc i * m < s * m := (Nat.mul_lt_mul_right hm).mpr hi
    _ = m * s := Nat.mul_comm _ _

theorem drop_take_append (hdr tail : List Char) (p L : Nat) (h : p + L ≤ hdr.length) :
    ((hdr ++ tail).drop p).take L = (hdr.drop p).take L := by
  rw [List.drop_append_of_le_length (by omega)]
  rw [List.take_append_of_le_length (by simp; omega)]

theorem drop_self_append (A C : List Char) (p : Nat) (h : A.length = p) :
    ((A ++ C).drop p).take C.length = C := by
  subst h
  rw [List.drop_left, List.take_length]

theorem scaleFold_spec (filler : Char) (l m s : Nat) (hm : 0 < m) (hm100 : m ≤ 100)
    (hs : 0 < s) (hls : 4 ≤ l / s) :
    ∀ i, i ≤ s →
      (IntervalPrinter.scaleFold filler l m s i).length =
        (if i = 0 then 0 else l * (i - 1) / s + (Nat.repr ((i - 1) * m / s)).length) ∧
      (∀ j, j < i →
        l * j / s + (Nat.repr (j * m / s)).length ≤
          (IntervalPrinter.scaleFold filler l m s i).length) ∧
      (∀ j, j < i →
        ((IntervalPrinter.scaleFold filler l m s i).drop (l * j / s)).take
          (Nat.repr (j * m / s)).length = (Nat.repr (j * m / s)).toList) := by
  intro i
  induction i with
  | zero =>
    intro _
    exact ⟨rfl, fun j hj => absurd hj (by omega), fun j hj => absurd hj (by omega)⟩
  | succ k ihk =>
    intro hk
    obtain ⟨hlen, hbound, hplaced⟩ := ihk (by omega)
    have hLof : ∀ j, j < s → (Nat.repr (j * m / s)).length ≤ 2 := by
      intro j hj
      exact reprLen_le_two _ (by have := label_lt m s j hm hs hj; omega)
    have hlenle : (IntervalPrinter.scaleFold filler l m s k).length ≤ l * k / s := by
      rw [hlen]
      by_cases hk0 : k = 0
      · subst hk0
        simp
      · rw [if_neg hk0]
        have hgap := natDiv_gap l s (k - 1) hs
        have hk1 : k - 1 + 1 = k := by omega
        rw [hk1] at hgap
        have hL := hLof (k - 1) (by omega)
        omega
    have hpos := tickPos_eq l m s k hm hs
    have hlab := tickLabel_eq m s k hm hs
    have hunfold : IntervalPrinter.scaleFold filler l m s (k + 1) =
        IntervalPrinter.scaleFold filler l m s k ++
          List.replicate (l * k / s -
            (IntervalPrinter.scaleFold filler l m s k).length) filler ++
          (Nat.repr (k * m / s)).toList := by
      show IntervalPrinter.scaleFold filler l m s k ++
          List.replicate (IntervalPrinter.tickPos l m s k -
            (IntervalPrinter.scaleFold filler l m s k).length) filler ++
          (Nat.repr (IntervalPrinter.tickLabel m s k)).toList = _
      rw [hpos, hlab]
    have hprefixlen : (IntervalPrinter.scaleFold filler l m s k ++
        List.replicate (l * k / s -
          (IntervalPrinter.scaleFold filler l m s k).length) filler).length = l * k / s := by
      simp [List.length_append, List.length_replicate]
      omega
    have hstr : ∀ x : Nat, (Nat.repr x).length = (Nat.repr x).toList.length := fun _ => rfl
    have hnewlen : (IntervalPrinter.scaleFold filler l m s (k + 1)).length =
        l * k / s + (Nat.repr (k * m / s)).length := by
      rw [hunfold]
      rw [List.length_append, hprefixlen, hstr]
    have hboundnew : ∀ j, j < k + 1 →
        l * j / s + (Nat.repr (j * m / s)).length ≤
          (IntervalPrinter.scaleFold filler l m s (k + 1)).length := by
      intro j hj
      rw [hnewlen]
      by_cases hjk : j = k
      · subst hjk; omega
      · have hL := hLof j (by omega)
        have hgap := natDiv_gap l s j hs
        have hmono : l * (j + 1) / s ≤ l * k / s :=
          Nat.div_le_div_right (Nat.mul_le_mul_left l (by omega))
        omega
    refine ⟨by rw [hnewlen]; simp, hboundnew, ?_⟩
    intro j hj
    by_cases hjk : j = k
    · subst hjk
      rw [hunfold, hstr]
      exact drop_self_append _ _ _ hprefixlen
    · have hjlt : j < k := by omega
      rw [hunfold]
      have hb1 : l * j / s + (Nat.repr (j * m / s)).length ≤
          (IntervalPrinter.scaleFold filler l m s k ++
            List.replicate (l * k / s -
              (IntervalPrinter.scaleFold filler l m s k).length) filler).length := by
        rw [hprefixlen]
        have hL := hLof j (by omega)
        have hgap := natDiv_gap l s j hs
        have hmono : l * (j + 1) / s ≤ l * k / s :=
          Nat.div_le_div_right (Nat.mul_le_mul_left l (by omega))
        omega
      rw [drop_take_append _ _ _ _ hb1]
      rw [drop_take_append _ _ _ _ (hbound j hjlt)]
      exact hplaced j hjlt

theorem makeScale_spec (filler : Char) (l m : Nat) (rest : List Nat)
    (hm : 0 < m) (hm100 : m ≤ 100)
    (hfind : IntervalPrinter.findTick l (m :: rest) ≠ 0)
    (hge : 4 ≤ l / IntervalPrinter.findTick l (m :: rest)) :
    ∃ hdr, IntervalPrinter.makeScale filler l (m :: rest) = some hdr ∧
      hdr.length = l ∧
      ∀ j, j < IntervalPrinter.findTick l (m :: rest) →
        (hdr.drop (l * j / IntervalPrinter.findTick l (m :: rest))).take
          (Nat.repr (j * m / IntervalPrinter.findTick l (m :: rest))).length =
          (Nat.repr (j * m / IntervalPrinter.findTick l (m :: rest))).toList := by
  have hs : 0 < IntervalPrinter.findTick l (m :: rest) := Nat.pos_of_ne_zero hfind
  obtain ⟨hlen, hbound, hplaced⟩ := scaleFold_spec filler l m
    (IntervalPrinter.findTick l (m :: rest)) hm hm100 hs hge
    (IntervalPrinter.findTick l (m :: rest)) (le_refl _)
  have hfold_le : (IntervalPrinter.scaleFold filler l m
      (IntervalPrinter.findTick l (m :: rest))
      (IntervalPrinter.findTick l (m :: rest))).length ≤ l := by
    rw [hlen, if_neg hfind]
    have hgap := natDiv_gap l (IntervalPrinter.findTick l (m :: rest))
      (IntervalPrinter.findTick l (m :: rest) - 1) hs
    have hs1 : IntervalPrinter.findTick l (m :: rest) - 1 + 1 =
        IntervalPrinter.findTick l (m :: rest) := by omega
    rw [hs1] at hgap
    have hLs : (Nat.repr ((IntervalPrinter.findTick l (m :: rest) - 1) * m /
        IntervalPrinter.findTick l (m :: rest))).length ≤ 2 :=
      reprLen_le_two _ (by
        have := label_lt m (IntervalPrinter.findTick l (m :: rest))
          (IntervalPrinter.findTick l (m :: rest) - 1) hm hs (by omega)
        omega)
    have hcancel : l * IntervalPrinter.findTick l (m :: rest) /
        IntervalPrinter.findTick l (m :: rest) = l := by
      rw [Nat.mul_div_assoc l (dvd_refl _), Nat.div_self hs, Nat.mul_one]
    omega
  refine ⟨IntervalPrinter.scaleFold filler l m (IntervalPrinter.findTick l (m :: rest))
      (IntervalPrinter.findTick l (m :: rest)) ++
    List.replicate (l - (IntervalPrinter.scaleFold filler l m
      (IntervalPrinter.findTick l (m :: rest))
      (IntervalPrinter.findTick l (m :: rest))).length) filler, ?_, ?_, ?_⟩
  · show (if IntervalPrinter.findTick l (m :: rest) = 0 then none else
        some (IntervalPrinter.scaleFold filler l m (IntervalPrinter.findTick l (m :: rest))
          (IntervalPrinter.findTick l (m :: rest)) ++
          List.replicate (l - (IntervalPrinter.scaleFold filler l m
            (IntervalPrinter.findTick l (m :: rest))
            (IntervalPrinter.findTick l (m :: rest))).length) filler)) = _
    rw [if_neg hfind]
  · simp [List.length_append, List.length_replicate]
    omega
  · intro j hj
    rw [drop_take_append _ _ _ _ (hbound j hj)]
    exact hplaced j hj

/-- Claim C9 (amended): for every bucket count `l ≥ 4` and the fixed
candidate tick-count lists, axis generation totally computes an axis
string of exactly `l` characters: it selects the first candidate `n` with
`l // n ≥ 4` and places the decimal label of tick `i` (value
`i·(max/n)`, computed exactly) at character offset
`⌊l·i·(max/n)/max⌋ = l·i/n`, padding with filler between and after; for
bucket counts 1–3 no candidate qualifies and `step = maxticks/s` divides
by zero. -/
theorem C9_axis_generation (l : Nat) (h4 : 4 ≤ l) :
    ∀ ticks ∈ [minuteTicks, dayTicks], ∀ filler : Char,
      ticks.find? (fun nt => decide (4 ≤ l / nt)) =
        some (IntervalPrinter.findTick l ticks) ∧
      4 ≤ l / IntervalPrinter.findTick l ticks ∧
      ∃ hdr, IntervalPrinter.makeScale filler l ticks = some hdr ∧
        hdr.length = l ∧
        ∀ j, j < IntervalPrinter.findTick l ticks →
          (hdr.drop (l * j / IntervalPrinter.findTick l ticks)).take
            (Nat.repr (j * ticks.headD 0 / IntervalPrinter.findTick l ticks)).length =
            (Nat.repr (j * ticks.headD 0 / IntervalPrinter.findTick l ticks)).toList := by
  have hmain : ∀ (m : Nat) (rest : List Nat), 0 < m → m ≤ 100 → 1 ∈ (m :: rest) →
      ∀ filler : Char,
      (m :: rest).find? (fun nt => decide (4 ≤ l / nt)) =
        some (IntervalPrinter.findTick l (m :: rest)) ∧
      4 ≤ l / IntervalPrinter.findTick l (m :: rest) ∧
      ∃ hdr, IntervalPrinter.makeScale filler l (m :: rest) = some hdr ∧
        hdr.length = l ∧
        ∀ j, j < IntervalPrinter.findTick l (m :: rest) →
          (hdr.drop (l * j / IntervalPrinter.findTick l (m :: rest))).take
            (Nat.repr (j * (m :: rest).headD 0 /
              IntervalPrinter.findTick l (m :: rest))).length =
            (Nat.repr (j * (m :: rest).headD 0 /
              IntervalPrinter.findTick l (m :: rest))).toList := by
    intro m rest hm hm100 h1mem filler
    have hfs := findTick_spec l (m :: rest) ⟨1, h1mem, by rw [Nat.div_one]; exact h4⟩
    refine ⟨findTick_eq_find? l (m :: rest) hfs.1, hfs.2, ?_⟩
    exact makeScale_spec filler l m rest hm hm100 hfs.1 hfs.2
  intro ticks hticks filler
  rcases (by simpa using hticks : ticks = minuteTicks ∨ ticks = dayTicks) with rfl | rfl
  · exact hmain 60 [12, 6, 4, 2, 1] (by omega) (by omega) (by decide) filler
  · exact hmain 24 [12, 8, 4, 2, 1] (by omega) (by omega) (by decide) filler

/-- Claim C9 counterexample: axis generation is not total — bucket counts
1–3 leave the candidate loop without a qualifying tick count (`s` stays
0) and `step = maxticks/s` raises ZeroDivisionError. -/
theorem C9_counterexample :
    IntervalPrinter.makeScale '·' 1 minuteTicks = none ∧
    IntervalPrinter.makeScale '·' 2 minuteTicks = none ∧
    IntervalPrinter.makeScale '·' 3 minuteTicks = none ∧
    IntervalPrinter.makeScale '·' 3 dayTicks = none := by
  decide

/-- Witness for C9. -/
theorem C9_axis_generation_witness :
    (minuteTicks.find? (fun nt => decide (4 ≤ 24 / nt)) =
        some (IntervalPrinter.findTick 24 minuteTicks) ∧
      4 ≤ 24 / IntervalPrinter.findTick 24 minuteTicks ∧
      ∃ hdr, IntervalPrinter.makeScale '·' 24 minuteTicks = some hdr ∧
        hdr.length = 24 ∧
        ∀ j, j < IntervalPrinter.findTick 24 minuteTicks →
          (hdr.drop (24 * j / IntervalPrinter.findTick 24 minuteTicks)).take
            (Nat.repr (j * minuteTicks.headD 0 /
              IntervalPrinter.findTick 24 minuteTicks)).length =
            (Nat.repr (j * minuteTicks.headD 0 /
              IntervalPrinter.findTick 24 minuteTicks)).toList) ∧
    IntervalPrinter.makeScale '·' 24 minuteTicks = some ("0···10··20··30··40··50··".toList) := by
  constructor
  · exact C9_axis_generation 24 (by omega) minuteTicks (by simp) '·'
  · have hpos : ∀ i, IntervalPrinter.tickPos 24 60 6 i = 24 * i / 6 :=
      fun i => tickPos_eq 24 60 6 i (by omega) (by omega)
    have hlab : ∀ i, IntervalPrinter.tickLabel 60 6 i = i * 60 / 6 :=
      fun i => tickLabel_eq 60 6 i (by omega) (by omega)
    have hft : IntervalPrinter.findTick 24 minuteTicks = 6 := by decide
    show (if IntervalPrinter.findTick 24 minuteTicks = 0 then none else
        some (IntervalPrinter.scaleFold '·' 24 60 (IntervalPrinter.findTick 24 minuteTicks)
          (IntervalPrinter.findTick 24 minuteTicks) ++
          List.replicate (24 - (IntervalPrinter.scaleFold '·' 24 60
            (IntervalPrinter.findTick 24 minuteTicks)
            (IntervalPrinter.findTick 24 minuteTicks)).length) '·')) = _
    rw [hft]
    simp only [IntervalPrinter.scaleFold, hpos, hlab]
    decide
